import Mathlib

/-!
# Files manager: the file hierarchy and access-control handlers

A shallow embedding of `controllers/FilesController.js`.

* JavaScript values are the scalars a JSON body, a route parameter or a query
  string can carry (`JsVal`).  Numbers are integer valued and unbounded; IEEE
  rounding of very large numbers is outside the model.
* JavaScript strings are Lean strings; `utf16` gives the UTF-16 code units that
  `length` and `charCodeAt` see (lone surrogates cannot be written down here).
* A BSON `ObjectId` is its 12 bytes read as one big-endian number below `2 ^ 96`;
  byte-wise comparison of ids is comparison of these numbers.
* The files collection is the list of its documents in insertion order; the
  storage directory and the thumbnail queue are explicit parts of the state.
* What the handlers take from libraries whose behaviour is not fixed by this
  repository is gathered in `Env`.
-/

namespace FilesManager

/-! ## JavaScript values -/

/-- Scalar JavaScript values; `undefined` stands for an absent field. -/
inductive JsVal where
  | undefined
  | null
  | bool (b : Bool)
  | num (n : Int)
  | str (s : String)
  deriving DecidableEq, Repr

/-- JavaScript truthiness, as used by `!x` and `x || y`. -/
def JsVal.truthy : JsVal → Bool
  | .undefined => false
  | .null => false
  | .bool b => b
  | .num n => n != 0
  | .str s => s != ""

/-- The JavaScript expression `a || b`. -/
def JsVal.or (a b : JsVal) : JsVal := if a.truthy then a else b

/-- UTF-16 code units of one code point. -/
def utf16Units (c : Char) : List Nat :=
  if c.toNat < 0x10000 then [c.toNat]
  else [0xD800 + (c.toNat - 0x10000) / 0x400, 0xDC00 + (c.toNat - 0x10000) % 0x400]

/-- UTF-16 code units of a string: what `s.length` counts and `s.charCodeAt(i)` reads. -/
def utf16 (s : String) : List Nat := (s.data.map utf16Units).flatten

/-! ## Constants of the controller -/

def VALID_FILE_TYPES : List JsVal := [.str "folder", .str "file", .str "image"]

def ROOT_FOLDER_ID : JsVal := .num 0

/-- The value of `ROOT_FOLDER_ID.toString()`. -/
def ROOT_FOLDER_ID_STRING : JsVal := .str "0"

def MAX_FILES_PER_PAGE : Nat := 20

/-- The value of `Buffer.alloc(24, '0').toString('utf-8')`. -/
def NULL_ID : String := String.mk (List.replicate 24 '0')

/-! ## isValidId -/

def charRanges : List (Nat × Nat) := [(48, 57), (97, 102), (65, 70)]

/-- The `for` loop of `isValidId`: `i` is the loop index, the third argument is
`size - i`, the number of iterations left. -/
def isValidIdLoop (units : List Nat) (i : Nat) : Nat → Bool
  | 0 => true
  | left + 1 =>
    match units.get? i with
    | none => false
    | some code =>
      if !(charRanges.any fun range => decide (code ≥ range.1) && decide (code ≤ range.2)) then false
      else isValidIdLoop units (i + 1) left

def isValidId (id : JsVal) : Bool :=
  let size := 24
  match id with
  | .str s =>
    if (utf16 s).length != size then false
    else isValidIdLoop (utf16 s) 0 size
  | _ => false

/-! ## ObjectId -/

/-- A BSON ObjectId: 12 bytes, read as a big-endian number. -/
structure ObjectId where
  val : Nat
  isLt : val < 2 ^ 96
  deriving DecidableEq, Repr

/-- Value of a hexadecimal digit given by its code unit (either case). -/
def hexValue (code : Nat) : Nat :=
  if 48 ≤ code ∧ code ≤ 57 then code - 48
  else if 97 ≤ code ∧ code ≤ 102 then code - 87
  else if 65 ≤ code ∧ code ≤ 70 then code - 55
  else 0

/-- The bytes denoted by a 24-character hexadecimal string; the case of the
letters does not matter. -/
def ObjectId.createFromHexString (s : String) : ObjectId :=
  ⟨(utf16 s).foldl (fun acc code => acc * 16 + hexValue code) 0 % 2 ^ 96,
    Nat.mod_lt _ (by norm_num)⟩

/-- The lower-case character of a hexadecimal digit. -/
def hexDigitChar (d : Nat) : Char :=
  if d < 10 then Char.ofNat (48 + d) else Char.ofNat (87 + d)

/-- The `w` least significant hexadecimal digits of `n`, most significant first. -/
def hexDigits : Nat → Nat → List Nat
  | 0, _ => []
  | w + 1, n => hexDigits w (n / 16) ++ [n % 16]

/-- The method `toString()` / `toHexString()` of an ObjectId: 24 lower-case digits. -/
def ObjectId.toHexString (o : ObjectId) : String :=
  String.mk ((hexDigits 24 o.val).map hexDigitChar)

/-- The expression `new ObjectId(isValidId(id) ? id : NULL_ID)`: the argument is
always a 24-digit hexadecimal string, which the constructor parses. -/
def sanitizedObjectId (id : JsVal) : ObjectId :=
  match id with
  | .str s => if isValidId id then ObjectId.createFromHexString s
              else ObjectId.createFromHexString NULL_ID
  | _ => ObjectId.createFromHexString NULL_ID

/-! ## Collaborators outside this repository -/

/-- Library behaviour the handlers rely on and this repository does not fix. -/
structure Env where
  /-- The call `new ObjectId(v)` for a `v` that is not a 24-digit hexadecimal
  string: `none` when the constructor throws, otherwise the id it builds. -/
  objectIdOther : JsVal → Option ObjectId
  /-- The bytes of `Buffer.from(s, 'base64')`. -/
  base64Decode : String → List Nat
  /-- The function `contentType` of `mime-types`; `none` stands for `false`. -/
  contentType : JsVal → Option String
  /-- The storage root: the trimmed `FOLDER_PATH`, or `files_manager` under the
  temporary directory of the host. -/
  baseDir : String

/-- The constructor call `new ObjectId(v)`. -/
def ObjectId.new (env : Env) (v : JsVal) : Option ObjectId :=
  match v with
  | .str s => if isValidId v then some (ObjectId.createFromHexString s) else env.objectIdOther v
  | _ => env.objectIdOther v

/-- The function `join` of `path`, for a directory and a file name. -/
def joinPath (dir file : String) : String := dir ++ "/" ++ file

/-! ## State -/

/-- The stored value of `parentId`: the string `'0'` or an ObjectId. -/
inductive ParentRef where
  | root
  | oid (o : ObjectId)
  deriving DecidableEq, Repr

/-- A document of the files collection. -/
structure FileDoc where
  _id : ObjectId
  userId : ObjectId
  name : JsVal
  type : JsVal
  isPublic : JsVal
  parentId : ParentRef
  localPath : Option String
  deriving DecidableEq, Repr

/-- A job of the thumbnail queue. -/
structure Job where
  userId : String
  fileId : String
  name : String
  deriving DecidableEq, Repr

/-- The explicit state: the files collection in insertion order, the
directories made, the files written (path and bytes) and the queued jobs. -/
structure State where
  files : List FileDoc
  dirs : List String
  disk : List (String × List Nat)
  queue : List Job
  deriving DecidableEq, Repr

def State.empty : State := ⟨[], [], [], []⟩

/-- The call `mkdir(dir, recursive)`: nothing happens when the directory is there. -/
def mkDirAsync (dir : String) (st : State) : State :=
  if dir ∈ st.dirs then st else { st with dirs := dir :: st.dirs }

/-- The call `writeFile(path, bytes)`: replaces what was at `path`. -/
def writeFileAsync (path : String) (bytes : List Nat) (st : State) : State :=
  { st with disk := (path, bytes) :: st.disk.filter fun e => e.1 != path }

/-- The call `existsSync(path)`; `none` is an `undefined` path. -/
def existsSync (path : Option String) (st : State) : Bool :=
  match path with
  | none => false
  | some p => st.disk.any (fun e => e.1 == p) || st.dirs.contains p

/-- The size reported by `stat(path)`. -/
def statSize (path : String) (st : State) : Nat :=
  match st.disk.find? fun e => e.1 == path with
  | some e => e.2.length
  | none => 0

/-- The collection method `findOne`: the first document matching the filter. -/
def findOne (filter : FileDoc → Bool) (files : List FileDoc) : Option FileDoc :=
  files.find? filter

/-- The collection method `updateOne`: changes the first document matching the filter. -/
def updateOne (filter : FileDoc → Bool) (update : FileDoc → FileDoc) :
    List FileDoc → List FileDoc
  | [] => []
  | f :: fs => if filter f then update f :: fs else f :: updateOne filter update fs

/-- The collection method `insertOne`, for a document that carries the `_id` the
driver generated: the collection rejects an `_id` that is already in use (`none`),
otherwise the document is added. -/
def insertOne (doc : FileDoc) (files : List FileDoc) : Option (List FileDoc) :=
  if files.any fun f => f._id == doc._id then none else some (files ++ [doc])

/-! ## Responses -/

/-- The record shape the handlers answer with. -/
structure FileView where
  id : JsVal
  userId : String
  name : JsVal
  type : JsVal
  isPublic : JsVal
  parentId : JsVal
  deriving DecidableEq, Repr

inductive Body where
  | error (msg : String)
  | file (f : FileView)
  | files (l : List FileView)
  deriving DecidableEq, Repr

/-- What a handler does with the response object; `threw` is an exception that
leaves the handler before any answer is sent. -/
inductive Response where
  | json (status : Nat) (body : Body)
  | sendFile (status : Nat) (contentType : String) (contentLength : Nat) (path : String)
  | threw (what : String)
  deriving DecidableEq, Repr

def Response.status : Response → Option Nat
  | .json s _ => some s
  | .sendFile s _ _ _ => some s
  | .threw _ => none

/-- The expression `file.parentId === '0' ? 0 : file.parentId.toString()`. -/
def parentIdView : ParentRef → JsVal
  | .root => .num 0
  | .oid o => .str o.toHexString

/-- Conversion of a value to a string, as done by `toString()` and by template strings. -/
def JsVal.toJsString : JsVal → String
  | .undefined => "undefined"
  | .null => "null"
  | .bool true => "true"
  | .bool false => "false"
  | .num n => toString n
  | .str s => s

def notFound : Response := .json 404 (.error "Not found")

/-! ## postUpload -/

/-- The fields `postUpload` reads from `req.body`; a missing body has every field `undefined`. -/
structure UploadBody where
  name : JsVal
  type : JsVal
  parentId : JsVal
  isPublic : JsVal
  data : JsVal
  deriving DecidableEq, Repr

/-- Lines 69-90 of `postUpload`: the checks, with the message of the 400 answer of
the first one that fails. -/
def postUploadError (body : UploadBody) (st : State) : Option String :=
  let name := body.name
  let type := body.type
  let parentId := body.parentId.or ROOT_FOLDER_ID
  if !name.truthy then
    some "Missing name"
  else if !type.truthy || !VALID_FILE_TYPES.contains type then
    some "Missing type"
  else if !body.data.truthy && type != .str "folder" then
    some "Missing data"
  else if parentId != ROOT_FOLDER_ID && parentId != ROOT_FOLDER_ID_STRING then
    match findOne (fun f => f._id == sanitizedObjectId parentId) st.files with
    | none => some "Parent not found"
    | some file =>
      if file.type != .str "folder" then some "Parent is not a folder" else none
  else none

/-- Lines 97-105 of `postUpload`: the document to insert, without its `localPath`;
`none` when one of the two `ObjectId` constructors throws. -/
def postUploadNewFile (env : Env) (insertedId : ObjectId) (user : ObjectId)
    (body : UploadBody) : Option FileDoc :=
  let parentId := body.parentId.or ROOT_FOLDER_ID
  let isPublic := body.isPublic.or (.bool false)
  let userId := user.toHexString
  match ObjectId.new env (.str userId) with
  | none => none
  | some userOid =>
    let storedParent : Option ParentRef :=
      if parentId == ROOT_FOLDER_ID || parentId == ROOT_FOLDER_ID_STRING then some .root
      else (ObjectId.new env parentId).map .oid
    match storedParent with
    | none => none
    | some parentRef =>
      some { _id := insertedId, userId := userOid, name := body.name, type := body.type,
             isPublic := isPublic, parentId := parentRef, localPath := none }

/-- Lines 109-113 of `postUpload`: the file written for an upload that is not a
folder, and the document with its `localPath`; `none` when `Buffer.from` throws,
which it does for data that is not a string. -/
def postUploadWrite (env : Env) (uuid : String) (body : UploadBody) (newFile : FileDoc)
    (st : State) : Option (State × FileDoc) :=
  let type := body.type
  let base64Data := body.data.or (.str "")
  if type != .str "folder" then
    let localPath := joinPath env.baseDir uuid
    match base64Data with
    | .str text =>
      some (writeFileAsync localPath (env.base64Decode text) st,
        { newFile with localPath := some localPath })
    | _ => none
  else some (st, newFile)

/-- Lines 115-133 of `postUpload`: the insert, the thumbnail job and the 201 answer;
the handler throws when the collection rejects the insert. -/
def postUploadInsert (user : ObjectId) (body : UploadBody) (newFile : FileDoc) (st : State) :
    Response × State :=
  let type := body.type
  let parentId := body.parentId.or ROOT_FOLDER_ID
  let userId := user.toHexString
  match insertOne newFile st.files with
  | none => (.threw "MongoError", st)
  | some files =>
    let st1 := { st with files := files }
    let fileId := newFile._id.toHexString
    let st2 :=
      if type == .str "image" then
        { st1 with queue := st1.queue ++
            [⟨userId, fileId, "Image thumbnail [" ++ userId ++ "-" ++ fileId ++ "]"⟩] }
      else st1
    (.json 201 (.file
      { id := .str fileId, userId := userId, name := body.name, type := type,
        isPublic := body.isPublic.or (.bool false),
        parentId := if parentId == ROOT_FOLDER_ID || parentId == ROOT_FOLDER_ID_STRING
          then .num 0 else parentId }), st2)

/-- Lines 107-133 of `postUpload`: the directory, the file on disk, the insert,
the thumbnail job and the 201 answer. -/
def postUploadStore (env : Env) (uuid : String) (user : ObjectId) (body : UploadBody)
    (newFile : FileDoc) (st : State) : Response × State :=
  let st1 := mkDirAsync env.baseDir st
  match postUploadWrite env uuid body newFile st1 with
  | none => (.threw "TypeError", st1)
  | some (st2, newFile) => postUploadInsert user body newFile st2

/-- The handler `postUpload`.  `insertedId` is the `_id` the driver generates for
the inserted document and `uuid` the value of `uuidv4()`. -/
def postUpload (env : Env) (insertedId : ObjectId) (uuid : String) (user : ObjectId)
    (body : UploadBody) (st : State) : Response × State :=
  match postUploadError body st with
  | some msg => (.json 400 (.error msg), st)
  | none =>
    match postUploadNewFile env insertedId user body with
    | none => (.threw "TypeError", st)
    | some newFile => postUploadStore env uuid user body newFile st

/-! ## getShow -/

/-- The filter on `_id` and `userId` shared by `getShow`, `putPublish` and `putUnpublish`. -/
def fileFilter (user : ObjectId) (id : JsVal) (f : FileDoc) : Bool :=
  f._id == sanitizedObjectId id && f.userId == sanitizedObjectId (.str user.toHexString)

/-- The handler `getShow`; `idParam` is `req.params?.id`. -/
def getShow (user : ObjectId) (idParam : JsVal) (st : State) : Response :=
  let id := idParam.or (.str NULL_ID)
  let userId := user.toHexString
  match findOne (fileFilter user id) st.files with
  | none => notFound
  | some file =>
    .json 200 (.file
      { id := id, userId := userId, name := file.name, type := file.type,
        isPublic := file.isPublic, parentId := parentIdView file.parentId })

/-! ## getIndex -/

/-- A decimal digit, the class `\d` of a regular expression. -/
def isDecimalDigit (c : Char) : Bool := 48 ≤ c.toNat && c.toNat ≤ 57

/-- The test `/\d+/.test(s)`: the string holds a decimal digit somewhere. -/
def containsDigits (s : String) : Bool := s.data.any isDecimalDigit

/-- White space skipped by `parseInt`. -/
def isJsWhiteSpace (c : Char) : Bool :=
  [0x09, 0x0A, 0x0B, 0x0C, 0x0D, 0x20, 0xA0, 0x1680, 0x2028, 0x2029, 0x202F, 0x205F, 0x3000,
    0xFEFF].contains c.toNat || (0x2000 ≤ c.toNat && c.toNat ≤ 0x200A)

/-- The number a run of decimal digits denotes. -/
def decimalValue (digits : List Char) : Nat :=
  digits.foldl (fun acc c => acc * 10 + (c.toNat - 48)) 0

/-- The call `Number.parseInt(s, 10)`: leading white space, an optional sign, then
the longest run of decimal digits; `none` is `NaN`. -/
def parseInt (s : String) : Option Int :=
  let trimmed := s.data.dropWhile isJsWhiteSpace
  let signed : Bool × List Char :=
    match trimmed with
    | [] => (false, [])
    | c :: rest =>
      if c = '-' then (true, rest)
      else if c = '+' then (false, rest)
      else (false, c :: rest)
  let digits := signed.2.takeWhile isDecimalDigit
  if digits.isEmpty then none
  else if signed.1 then some (- (decimalValue digits : Int))
  else some (decimalValue digits : Int)

/-- The query parameters `getIndex` reads. -/
structure IndexQuery where
  parentId : JsVal
  page : JsVal
  deriving DecidableEq, Repr

/-- The page number `getIndex` computes from `req.query.page`; `none` is `NaN`. -/
def getIndexPage (pageParam : JsVal) : Option Int :=
  if containsDigits (pageParam.or (.str "")).toJsString then parseInt pageParam.toJsString
  else some 0

/-- The stage `$project` followed by the JSON encoding of the response. -/
def projectFile (f : FileDoc) : FileView :=
  { id := .str f._id.toHexString, userId := f.userId.toHexString, name := f.name,
    type := f.type, isPublic := f.isPublic, parentId := parentIdView f.parentId }

/-- The value of `filesFilter.parentId`: the string `'0'` for the root, otherwise
the ObjectId built from the sanitized parameter. -/
def filterParentId (parentIdParam : JsVal) : ParentRef :=
  let parentId := parentIdParam.or ROOT_FOLDER_ID_STRING
  if parentId == ROOT_FOLDER_ID_STRING then .root else .oid (sanitizedObjectId parentId)

/-- The filter of the stage `$match`. -/
def filesFilter (user : ObjectId) (parentIdParam : JsVal) (f : FileDoc) : Bool :=
  f.userId == user && f.parentId == filterParentId parentIdParam

/-- The order of the stage `$sort` by `_id`, descending: `a` may come before `b`. -/
def idDescending (a b : FileDoc) : Prop := b._id.val ≤ a._id.val

instance : DecidableRel idDescending := fun a b => inferInstanceAs (Decidable (b._id.val ≤ a._id.val))

instance : IsTotal FileDoc idDescending := ⟨fun a b => Nat.le_total b._id.val a._id.val⟩

instance : IsTrans FileDoc idDescending :=
  ⟨fun a b c (hab : b._id.val ≤ a._id.val) (hbc : c._id.val ≤ b._id.val) => Nat.le_trans hbc hab⟩

/-- The stage `$sort` by `_id`, descending. -/
def sortByIdDesc (files : List FileDoc) : List FileDoc :=
  files.insertionSort idDescending

/-- The handler `getIndex`.  The store rejects a `$skip` that is not a
non-negative integer, and the handler then throws. -/
def getIndex (user : ObjectId) (query : IndexQuery) (st : State) : Response :=
  let page := getIndexPage query.page
  match page with
  | none => .threw "MongoError"
  | some page =>
    let skip := page * MAX_FILES_PER_PAGE
    if skip < 0 then .threw "MongoError"
    else
      let files := (((st.files.filter (filesFilter user query.parentId)) |> sortByIdDesc).drop
        skip.toNat).take MAX_FILES_PER_PAGE
      .json 200 (.files (files.map projectFile))

/-! ## putPublish and putUnpublish -/

/-- The handler `putPublish`. -/
def putPublish (user : ObjectId) (id : JsVal) (st : State) : Response × State :=
  let userId := user.toHexString
  match findOne (fileFilter user id) st.files with
  | none => (notFound, st)
  | some file =>
    (.json 200 (.file
      { id := id, userId := userId, name := file.name, type := file.type,
        isPublic := .bool true, parentId := parentIdView file.parentId }),
     { st with
        files := updateOne (fileFilter user id) (fun f => { f with isPublic := .bool true }) st.files })

/-- The handler `putUnpublish`. -/
def putUnpublish (user : ObjectId) (id : JsVal) (st : State) : Response × State :=
  let userId := user.toHexString
  match findOne (fileFilter user id) st.files with
  | none => (notFound, st)
  | some file =>
    (.json 200 (.file
      { id := id, userId := userId, name := file.name, type := file.type,
        isPublic := .bool false, parentId := parentIdView file.parentId }),
     { st with
        files := updateOne (fileFilter user id) (fun f => { f with isPublic := .bool false }) st.files })

/-! ## getFile -/

/-- The condition of the first `if` of `getFile`:
`!file || (!file.isPublic && (file.userId.toString() !== userId))`. -/
def getFileDenied (file : Option FileDoc) (userId : String) : Bool :=
  match file with
  | none => true
  | some f => !f.isPublic.truthy && f.userId.toHexString != userId

/-- The value of `req.user` as `getFile` finds it: not set at all, or an object
whose `_id` may be missing. -/
inductive ReqUser where
  | unset
  | object (_id : Option ObjectId)
  deriving DecidableEq, Repr

/-- The expression `user._id ? user._id.toString() : ''` for a user object with the
given `_id`. -/
def getFileUserId (_id : Option ObjectId) : String :=
  match _id with
  | some u => u.toHexString
  | none => ""

/-- The document `getFile` fetches: the filter is on `_id` alone. -/
def getFileLookup (id : JsVal) (st : State) : Option FileDoc :=
  findOne (fun f => f._id == sanitizedObjectId id) st.files

/-- The handler `getFile`.  Reading `user._id` throws when `req.user` is not set. -/
def getFile (env : Env) (user : ReqUser) (id : JsVal) (size : JsVal) (st : State) :
    Response :=
  match user with
  | .unset => .threw "TypeError"
  | .object _id =>
    let sizeOptions := size.or .null
    let userId := getFileUserId _id
    let file := getFileLookup id st
    if getFileDenied file userId then notFound
    else
      match file with
      | none => notFound
      | some file =>
        if file.type == .str "folder" then
          .json 400 (.error "A folder doesn't have content")
        else
          let filePath : Option String :=
            if sizeOptions.truthy then
              some ((match file.localPath with
                | some p => p
                | none => "undefined") ++ "_" ++ sizeOptions.toJsString)
            else file.localPath
          match filePath with
          | none => notFound
          | some path =>
            if existsSync (some path) st then
              .sendFile 200 ((env.contentType file.name).getD "text/plain") (statSize path st)
                path
            else notFound

/-! ## Notions used in the statements -/

/-- Code units of the hexadecimal digits. -/
def inHexRange (code : Nat) : Prop :=
  (48 ≤ code ∧ code ≤ 57) ∨ (97 ≤ code ∧ code ≤ 102) ∨ (65 ≤ code ∧ code ≤ 70)


/-- The ASCII hexadecimal digits `0-9`, `a-f`, `A-F`. -/
def isHexDigit (c : Char) : Prop := c ∈ "0123456789abcdefABCDEF".data

/-- The code unit of the lower-case character of a hexadecimal digit. -/
def hexDigitCode (d : Nat) : Nat := if d < 10 then 48 + d else 87 + d

/-- The all-zero ObjectId that the sentinel `NULL_ID` denotes. -/
def nullObjectId : ObjectId := ObjectId.createFromHexString NULL_ID

/-- The request of a user object with the given `_id` passes the existence and
visibility gate of `getFile`: the first `if` of the handler does not answer. -/
def getFilePasses (user : Option ObjectId) (id : JsVal) (st : State) : Bool :=
  !getFileDenied (getFileLookup id st) (getFileUserId user)

/-- No two documents of the collection share an `_id`. -/
def distinctIds (files : List FileDoc) : Prop := (files.map fun f => f._id).Nodup

/-- The visibility toggle for the value `v`: `putPublish` for true, `putUnpublish` for false. -/
def setPublic (v : Bool) (user : ObjectId) (id : JsVal) (st : State) : Response × State :=
  if v then putPublish user id st else putUnpublish user id st

/-- The value `postUpload` uses for the parent: `req.body?.parentId || ROOT_FOLDER_ID`. -/
def uploadParentId (body : UploadBody) : JsVal := body.parentId.or ROOT_FOLDER_ID

/-- The upload addresses the root: its parent is the number `0` or the string `'0'`. -/
def isRootParent (body : UploadBody) : Prop :=
  uploadParentId body = ROOT_FOLDER_ID ∨ uploadParentId body = ROOT_FOLDER_ID_STRING

/-- The first three checks of an upload pass: the name is there, the type is one of
`folder`, `file`, `image`, and the data is there unless the type is `folder`. -/
def passesFieldChecks (body : UploadBody) : Prop :=
  body.name.truthy = true ∧ body.type ∈ VALID_FILE_TYPES ∧
    (body.data.truthy = true ∨ body.type = .str "folder")

/-- No document of the collection has the all-zero id of the sentinel. -/
def noNullId (files : List FileDoc) : Prop := ∀ f ∈ files, f._id ≠ nullObjectId

/-- An id the driver can generate for an insert: it is not in use in the collection,
and it is not the all-zero id, its leading bytes holding the time of creation. -/
def driverGenerated (insertedId : ObjectId) (files : List FileDoc) : Prop :=
  insertedId ≠ nullObjectId ∧ ∀ f ∈ files, f._id ≠ insertedId

/-- One call of a handler that writes to the state. -/
inductive Step (env : Env) : State → State → Prop where
  | upload (insertedId : ObjectId) (uuid : String) (user : ObjectId) (body : UploadBody)
      (st : State) (hid : driverGenerated insertedId st.files) :
      Step env st (postUpload env insertedId uuid user body st).2
  | publish (user : ObjectId) (id : JsVal) (st : State) :
      Step env st (putPublish user id st).2
  | unpublish (user : ObjectId) (id : JsVal) (st : State) :
      Step env st (putUnpublish user id st).2

/-- The states reached from an empty collection by calls of `postUpload`,
`putPublish` and `putUnpublish`. -/
inductive Reachable (env : Env) : State → Prop where
  | init (st : State) (hempty : st.files = []) : Reachable env st
  | step (st st' : State) (hst : Reachable env st) (hstep : Step env st st') : Reachable env st'

/-- Every document has the root as parent, or a stored document of type `folder`. -/
def parentsAreFolders (files : List FileDoc) : Prop :=
  ∀ f ∈ files, f.parentId = .root ∨
    ∃ g ∈ files, f.parentId = .oid g._id ∧ g.type = .str "folder"

/-! ## Sample data for worked examples -/

/-- A library environment for worked examples: the `ObjectId` constructor throws on
anything but a 24-digit hexadecimal string, and the decoder is a stand-in that
keeps the code of every character. -/
def sampleEnv : Env :=
  ⟨fun _ => none, fun text => text.data.map Char.toNat, fun _ => none, "/tmp/files_manager"⟩

def sampleUser : ObjectId := ⟨0x5f1e7cda04a394508232559d, by norm_num⟩

def otherUser : ObjectId := ⟨0x5f1e7d35c7ba06511e683b21, by norm_num⟩

def sampleFolderId : ObjectId := ⟨0x5f1e8896c7ba06511e683b25, by norm_num⟩

def sampleFileId : ObjectId := ⟨0x5f1e881cc7ba06511e683b23, by norm_num⟩

/-- An upload of a folder at the root. -/
def sampleFolderBody : UploadBody :=
  ⟨.str "images", .str "folder", .undefined, .undefined, .undefined⟩

/-- An upload of a file into the folder `sampleFolderId`. -/
def sampleFileBody : UploadBody :=
  ⟨.str "myText.txt", .str "file", .str "5f1e8896c7ba06511e683b25", .bool true,
    .str "SGVsbG8gV2Vic3RhY2shCg=="⟩

/-- An upload whose data is a number. -/
def numberDataBody : UploadBody :=
  ⟨.str "myText.txt", .str "file", .undefined, .undefined, .num 5⟩

/-- The state after the folder upload. -/
def sampleState1 : State :=
  (postUpload sampleEnv sampleFolderId "1c9b2a6e" sampleUser sampleFolderBody State.empty).2

/-- The state after the folder upload and the file upload. -/
def sampleState2 : State :=
  (postUpload sampleEnv sampleFileId "2b3f0d4a" sampleUser sampleFileBody sampleState1).2

/-- An upload of a file at the root whose `isPublic` is the string `'false'`. -/
def stringPublicBody : UploadBody :=
  ⟨.str "secret.txt", .str "file", .undefined, .str "false", .str "c2VjcmV0Cg=="⟩

/-- The state after the upload `stringPublicBody` into an empty collection. -/
def stringPublicState : State :=
  (postUpload sampleEnv sampleFileId "2b3f0d4a" sampleUser stringPublicBody State.empty).2

/-- An upload without a name whose parent is not a valid id. -/
def namelessBody : UploadBody :=
  ⟨.undefined, .str "file", .str "xyz", .undefined, .str "c2VjcmV0Cg=="⟩

/-- The children of the requested parent that the principal owns, newest first:
what `getIndex` pages through. -/
def listing (user : ObjectId) (parentIdParam : JsVal) (st : State) : List FileDoc :=
  sortByIdDesc (st.files.filter (filesFilter user parentIdParam))

/-- Entries `k * 20 .. k * 20 + 19` of the listing, in the shape of the response. -/
def listingPage (user : ObjectId) (parentIdParam : JsVal) (st : State) (k : Nat) :
    List FileView :=
  (((listing user parentIdParam st).drop (k * MAX_FILES_PER_PAGE)).take
    MAX_FILES_PER_PAGE).map projectFile

/-! ## The identifier validator -/

theorem charRanges_any_iff (code : Nat) :
    (charRanges.any fun range => decide (code ≥ range.1) && decide (code ≤ range.2)) = true
      ↔ inHexRange code := by
  simp [charRanges, inHexRange]

theorem isValidIdLoop_iff (units : List Nat) :
    ∀ (left i : Nat), isValidIdLoop units i left = true ↔
      ∀ j, i ≤ j → j < i + left → ∃ code, units.get? j = some code ∧ inHexRange code := by
  intro left
  induction left with
  | zero =>
    intro i
    simp only [isValidIdLoop, true_iff]
    intro j h1 h2
    omega
  | succ n ih =>
    intro i
    rw [isValidIdLoop]
    constructor
    · intro h j h1 h2
      cases hg : units.get? i with
      | none => rw [hg] at h; simp at h
      | some code =>
        rw [hg] at h
        simp only at h
        by_cases hc : (charRanges.any fun range => decide (code ≥ range.1) && decide (code ≤ range.2)) = true
        · rw [hc] at h
          simp only [Bool.not_true, Bool.false_eq_true, if_false] at h
          rcases Nat.eq_or_lt_of_le h1 with heq | hlt
          · subst heq
            exact ⟨code, hg, (charRanges_any_iff code).1 hc⟩
          · exact (ih (i + 1)).1 h j hlt (by omega)
        · simp only [Bool.not_eq_true] at hc
          rw [hc] at h
          simp at h
    · intro h
      obtain ⟨code, hg, hr⟩ := h i (Nat.le_refl i) (by omega)
      rw [hg]
      simp only
      rw [(charRanges_any_iff code).2 hr]
      simp only [Bool.not_true, Bool.false_eq_true, if_false]
      exact (ih (i + 1)).2 (fun j h1 h2 => h j (by omega) (by omega))

theorem isValidId_str_iff (s : String) :
    isValidId (.str s) = true ↔ (utf16 s).length = 24 ∧ ∀ u ∈ utf16 s, inHexRange u := by
  unfold isValidId
  simp only
  by_cases hlen : (utf16 s).length = 24
  · have hne : ((utf16 s).length != 24) = false := by simp [hlen]
    rw [hne]
    simp only [Bool.false_eq_true, if_false]
    rw [isValidIdLoop_iff]
    constructor
    · intro h
      refine ⟨hlen, ?_⟩
      intro u hu
      obtain ⟨j, hj, hju⟩ := List.getElem_of_mem hu
      obtain ⟨code, hc, hr⟩ := h j (Nat.zero_le j) (by omega)
      rw [List.get?_eq_getElem?, List.getElem?_eq_getElem hj] at hc
      cases hc
      rw [← hju]
      exact hr
    · rintro ⟨_, h⟩ j _ hj
      have hj' : j < (utf16 s).length := by omega
      exact ⟨(utf16 s)[j], by rw [List.get?_eq_getElem?, List.getElem?_eq_getElem hj'],
        h _ (List.getElem_mem _)⟩
  · have hne : ((utf16 s).length != 24) = true := by simp [hlen]
    rw [hne]
    simp [hlen]
theorem inHexRange_toNat_iff (c : Char) : inHexRange c.toNat ↔ isHexDigit c := by
  constructor
  · intro h
    have hc : c = Char.ofNat c.toNat := (Char.ofNat_toNat c).symm
    unfold inHexRange at h
    unfold isHexDigit
    rw [hc]
    generalize c.toNat = n at h
    rcases h with ⟨h1, h2⟩ | ⟨h1, h2⟩ | ⟨h1, h2⟩ <;> interval_cases n <;> decide
  · intro h
    unfold isHexDigit at h
    simp only [List.mem_cons, List.mem_singleton, List.not_mem_nil, or_false] at h
    unfold inHexRange
    rcases h with h | h | h | h | h | h | h | h | h | h | h | h | h | h | h | h | h | h | h | h | h | h <;>
      subst h <;> decide

theorem utf16Units_of_hex (c : Char) (h : inHexRange c.toNat) : utf16Units c = [c.toNat] := by
  unfold utf16Units
  have : c.toNat < 0x10000 := by unfold inHexRange at h; omega
  simp [this]

theorem utf16Units_hex_iff (c : Char) :
    (∀ u ∈ utf16Units c, inHexRange u) ↔ inHexRange c.toNat := by
  constructor
  · intro h
    unfold utf16Units at h
    by_cases hlt : c.toNat < 0x10000
    · simp only [hlt, if_true, List.mem_singleton, forall_eq] at h
      exact h
    · simp only [hlt, if_false] at h
      have := h (0xD800 + (c.toNat - 0x10000) / 0x400) (List.mem_cons_self _ _)
      unfold inHexRange at this
      omega
  · intro h u hu
    rw [utf16Units_of_hex c h] at hu
    simp only [List.mem_singleton] at hu
    rw [hu]
    exact h

theorem utf16_of_hex (s : String) (h : ∀ c ∈ s.data, inHexRange c.toNat) :
    utf16 s = s.data.map Char.toNat := by
  unfold utf16
  generalize s.data = l at h
  induction l with
  | nil => rfl
  | cons c cs ih =>
    simp only [List.map_cons, List.flatten_cons]
    rw [utf16Units_of_hex c (h c (List.mem_cons_self _ _)),
      ih (fun d hd => h d (List.mem_cons_of_mem _ hd))]
    rfl

theorem utf16_hex_iff (s : String) :
    (∀ u ∈ utf16 s, inHexRange u) ↔ ∀ c ∈ s.data, inHexRange c.toNat := by
  unfold utf16
  simp only [List.mem_flatten, List.mem_map]
  constructor
  · intro h c hc
    exact (utf16Units_hex_iff c).1 (fun u hu => h u ⟨utf16Units c, ⟨c, hc, rfl⟩, hu⟩)
  · rintro h u ⟨_, ⟨c, hc, rfl⟩, hu⟩
    exact (utf16Units_hex_iff c).2 (h c hc) u hu

/-- What `isValidId` decides, in terms of the characters of the string. -/
theorem isValidId_str_chars (s : String) :
    isValidId (.str s) = true ↔ s.length = 24 ∧ ∀ c ∈ s.data, isHexDigit c := by
  rw [isValidId_str_iff, utf16_hex_iff]
  constructor
  · rintro ⟨hlen, h⟩
    rw [utf16_of_hex s h, List.length_map] at hlen
    exact ⟨hlen, fun c hc => (inHexRange_toNat_iff c).1 (h c hc)⟩
  · rintro ⟨hlen, h⟩
    have h' : ∀ c ∈ s.data, inHexRange c.toNat := fun c hc => (inHexRange_toNat_iff c).2 (h c hc)
    rw [utf16_of_hex s h', List.length_map]
    exact ⟨hlen, h'⟩

/-- C3: `isValidId` returns true exactly for the strings of 24 characters (UTF-16
code units and code points alike) that are all ASCII hexadecimal digits; it returns
false for every value that is not a string and for every string of another length. -/
theorem isValidId_spec :
    (∀ v : JsVal, isValidId v = true ↔
      ∃ s, v = .str s ∧ s.length = 24 ∧ (utf16 s).length = 24 ∧ ∀ c ∈ s.data, isHexDigit c) ∧
    (∀ v : JsVal, (∀ s, v ≠ .str s) → isValidId v = false) ∧
    (∀ s : String, (utf16 s).length ≠ 24 → isValidId (.str s) = false) ∧
    (∀ s : String, s.length ≠ 24 → isValidId (.str s) = false) := by
  refine ⟨?_, ?_, ?_, ?_⟩
  · intro v
    constructor
    · intro h
      cases v with
      | str s =>
        have h1 := (isValidId_str_chars s).1 h
        have h2 := (isValidId_str_iff s).1 h
        exact ⟨s, rfl, h1.1, h2.1, h1.2⟩
      | undefined => simp [isValidId] at h
      | null => simp [isValidId] at h
      | bool b => simp [isValidId] at h
      | num n => simp [isValidId] at h
    · rintro ⟨s, rfl, hlen, _, h⟩
      exact (isValidId_str_chars s).2 ⟨hlen, h⟩
  · intro v hv
    cases v with
    | str s => exact absurd rfl (hv s)
    | undefined => rfl
    | null => rfl
    | bool b => rfl
    | num n => rfl
  · intro s hs
    cases h : isValidId (.str s) with
    | false => rfl
    | true => exact absurd ((isValidId_str_iff s).1 h).1 hs
  · intro s hs
    cases h : isValidId (.str s) with
    | false => rfl
    | true => exact absurd ((isValidId_str_chars s).1 h).1 hs
/-! ## Hexadecimal form of an ObjectId -/

theorem hexDigits_length (w : Nat) : ∀ n, (hexDigits w n).length = w := by
  induction w with
  | zero => intro n; rfl
  | succ w ih => intro n; simp [hexDigits, ih]

theorem hexDigits_lt (w : Nat) : ∀ n, ∀ d ∈ hexDigits w n, d < 16 := by
  induction w with
  | zero => intro n d hd; simp [hexDigits] at hd
  | succ w ih =>
    intro n d hd
    simp only [hexDigits, List.mem_append, List.mem_singleton] at hd
    rcases hd with hd | hd
    · exact ih _ d hd
    · rw [hd]; exact Nat.mod_lt _ (by norm_num)

theorem hexDigitChar_toNat (d : Nat) (h : d < 16) : (hexDigitChar d).toNat = hexDigitCode d := by
  interval_cases d <;> rfl

theorem hexDigitCode_range (d : Nat) (h : d < 16) : inHexRange (hexDigitCode d) := by
  unfold inHexRange hexDigitCode
  split <;> omega

theorem hexValue_hexDigitCode (d : Nat) (h : d < 16) : hexValue (hexDigitCode d) = d := by
  interval_cases d <;> rfl

theorem foldl_hexDigits (w : Nat) : ∀ n a,
    ((hexDigits w n).map hexDigitCode).foldl (fun acc code => acc * 16 + hexValue code) a
      = a * 16 ^ w + n % 16 ^ w := by
  induction w with
  | zero => intro n a; simp [hexDigits, Nat.mod_one]
  | succ w ih =>
    intro n a
    simp only [hexDigits, List.map_append, List.map_cons, List.map_nil, List.foldl_append,
      List.foldl_cons, List.foldl_nil]
    rw [ih, hexValue_hexDigitCode _ (Nat.mod_lt _ (by norm_num))]
    have h : n % 16 ^ (w + 1) = n % 16 + 16 * (n / 16 % 16 ^ w) := by
      rw [pow_succ, Nat.mul_comm (16 ^ w) 16, Nat.mod_mul]
    rw [h, pow_succ]
    ring

theorem toHexString_data (o : ObjectId) :
    o.toHexString.data = (hexDigits 24 o.val).map hexDigitChar := by
  simp only [ObjectId.toHexString]

theorem toHexString_hex (o : ObjectId) : ∀ c ∈ o.toHexString.data, inHexRange c.toNat := by
  intro c hc
  rw [toHexString_data, List.mem_map] at hc
  obtain ⟨d, hd, rfl⟩ := hc
  rw [hexDigitChar_toNat d (hexDigits_lt 24 _ d hd)]
  exact hexDigitCode_range d (hexDigits_lt 24 _ d hd)

theorem utf16_toHexString (o : ObjectId) :
    utf16 o.toHexString = (hexDigits 24 o.val).map hexDigitCode := by
  rw [utf16_of_hex _ (toHexString_hex o), toHexString_data, List.map_map]
  apply List.map_congr_left
  intro d hd
  exact hexDigitChar_toNat d (hexDigits_lt 24 _ d hd)

/-- Parsing the hexadecimal form of an id gives the id back. -/
theorem createFromHexString_toHexString (o : ObjectId) :
    ObjectId.createFromHexString o.toHexString = o := by
  obtain ⟨v, hv⟩ := o
  unfold ObjectId.createFromHexString
  simp only [ObjectId.mk.injEq]
  rw [utf16_toHexString, foldl_hexDigits]
  have h16 : (16 : Nat) ^ 24 = 2 ^ 96 := by norm_num
  simp only [Nat.zero_mul, Nat.zero_add, h16]
  rw [Nat.mod_mod, Nat.mod_eq_of_lt hv]

/-- The hexadecimal form of an id is a valid id. -/
theorem isValidId_toHexString (o : ObjectId) : isValidId (.str o.toHexString) = true := by
  rw [isValidId_str_iff]
  refine ⟨?_, ?_⟩
  · rw [utf16_toHexString, List.length_map, hexDigits_length]
  · rw [utf16_hex_iff]
    exact toHexString_hex o

theorem sanitizedObjectId_toHexString (o : ObjectId) :
    sanitizedObjectId (.str o.toHexString) = o := by
  unfold sanitizedObjectId
  simp only [isValidId_toHexString, if_true]
  exact createFromHexString_toHexString o

theorem toHexString_injective (a b : ObjectId) (h : a.toHexString = b.toHexString) : a = b := by
  rw [← createFromHexString_toHexString a, ← createFromHexString_toHexString b, h]

theorem toHexString_ne_empty (o : ObjectId) : o.toHexString ≠ "" := by
  intro h
  have := isValidId_toHexString o
  rw [h] at this
  revert this
  decide

theorem sanitizedObjectId_of_invalid (id : JsVal) (h : isValidId id = false) :
    sanitizedObjectId id = nullObjectId := by
  unfold sanitizedObjectId nullObjectId
  cases id <;> simp [h]

theorem sanitizedObjectId_of_valid (s : String) (h : isValidId (.str s) = true) :
    sanitizedObjectId (.str s) = ObjectId.createFromHexString s := by
  unfold sanitizedObjectId
  simp [h]

theorem ObjectId.new_of_valid (env : Env) (v : JsVal) (h : isValidId v = true) :
    ObjectId.new env v = some (sanitizedObjectId v) := by
  cases v with
  | str s => simp [ObjectId.new, sanitizedObjectId, h]
  | undefined => simp [isValidId] at h
  | null => simp [isValidId] at h
  | bool b => simp [isValidId] at h
  | num n => simp [isValidId] at h

theorem ObjectId.new_toHexString (env : Env) (o : ObjectId) :
    ObjectId.new env (.str o.toHexString) = some o := by
  rw [ObjectId.new_of_valid env _ (isValidId_toHexString o), sanitizedObjectId_toHexString]
/-! ## Lookups -/

theorem findOne_none_iff (p : FileDoc → Bool) (files : List FileDoc) :
    findOne p files = none ↔ ∀ f ∈ files, p f = false := by
  unfold findOne
  simp [List.find?_eq_none]

theorem findOne_some (p : FileDoc → Bool) (files : List FileDoc) (f : FileDoc)
    (h : findOne p files = some f) : f ∈ files ∧ p f = true := by
  unfold findOne at h
  exact ⟨List.mem_of_find?_eq_some h, List.find?_some h⟩

/-- With distinct ids, the document found by `_id` is the only one with that id. -/
theorem findOne_id_of_mem (key : ObjectId) (files : List FileDoc) (hd : distinctIds files)
    (f : FileDoc) (hf : f ∈ files) (hk : f._id = key) :
    findOne (fun g => g._id == key) files = some f := by
  unfold findOne
  unfold distinctIds at hd
  induction files with
  | nil => simp at hf
  | cons g gs ih =>
    simp only [List.map_cons, List.nodup_cons, List.mem_map, not_exists, not_and] at hd
    rcases List.mem_cons.1 hf with heq | hmem
    · subst heq
      simp [List.find?_cons, hk]
    · have hne : g._id ≠ key := by
        intro hg
        exact hd.1 f hmem (by rw [hk, hg])
      have hb : (g._id == key) = false := by simp [hne]
      rw [List.find?_cons, hb]
      exact ih hd.2 hmem

theorem getFileUserId_ne_iff (user : Option ObjectId) (o : ObjectId) :
    o.toHexString ≠ getFileUserId user ↔ user ≠ some o := by
  cases user with
  | none =>
    simp only [getFileUserId, ne_eq, reduceCtorEq, not_false_eq_true, iff_true]
    exact toHexString_ne_empty o
  | some u =>
    simp only [getFileUserId, ne_eq, Option.some.injEq]
    constructor
    · intro h hu; exact h (by rw [hu])
    · intro h hu; exact h (toHexString_injective _ _ hu).symm

theorem getFileDenied_false_iff (file : Option FileDoc) (user : Option ObjectId) :
    getFileDenied file (getFileUserId user) = false ↔
      ∃ f, file = some f ∧ (f.isPublic.truthy = true ∨ user = some f.userId) := by
  cases file with
  | none => simp [getFileDenied]
  | some f =>
    simp only [getFileDenied, Option.some.injEq, exists_eq_left']
    have := getFileUserId_ne_iff user f.userId
    by_cases ht : f.isPublic.truthy = true
    · simp [ht]
    · by_cases hu : user = some f.userId
      · have h2 : ¬ (f.userId.toHexString ≠ getFileUserId user) := fun h => (this.1 h) hu
        simp only [ne_eq, not_not] at h2
        simp [hu, h2]
      · have h2 := this.2 hu
        simp [ht, hu, h2]

theorem getFile_of_denied (env : Env) (user : Option ObjectId) (id size : JsVal) (st : State)
    (h : getFilePasses user id st = false) : getFile env (.object user) id size st = notFound := by
  unfold getFilePasses at h
  simp only [Bool.not_eq_false'] at h
  unfold getFile
  simp [h]

/-- C1, as the code has it: for a request that carries a user object (with or without
an `_id`), `getFile` passes its existence and visibility gate iff the entity with the
requested id (the document whose `_id` is the ObjectId the handler builds from the
id) exists and its `isPublic` counts as true (any value that is not false, `0`, the
empty string or absent) or its owner is the `_id` of the user; otherwise the answer
is 404 `Not found`, the same for a missing id and for a private entity of someone
else; the 400 answer for folders is given only to a folder that passed the gate.  In
a collection without the all-zero id the gate passes only for a valid id. -/
theorem getFile_gate (env : Env) (user : Option ObjectId) (id size : JsVal) (st : State) :
    (getFilePasses user id st = true ↔
      ∃ f, getFileLookup id st = some f ∧ (f.isPublic.truthy = true ∨ user = some f.userId)) ∧
    (getFileLookup id st = none ↔ ∀ f ∈ st.files, f._id ≠ sanitizedObjectId id) ∧
    (∀ f, getFileLookup id st = some f → f ∈ st.files ∧ f._id = sanitizedObjectId id) ∧
    (∀ f : FileDoc, id = .str f._id.toHexString → sanitizedObjectId id = f._id) ∧
    (distinctIds st.files →
      (getFilePasses user id st = true ↔
        ∃ f ∈ st.files, f._id = sanitizedObjectId id ∧
          (f.isPublic.truthy = true ∨ user = some f.userId))) ∧
    (distinctIds st.files → noNullId st.files →
      (getFilePasses user id st = true ↔
        isValidId id = true ∧ ∃ f ∈ st.files, f._id = sanitizedObjectId id ∧
          (f.isPublic.truthy = true ∨ user = some f.userId))) ∧
    (getFilePasses user id st = false → getFile env (.object user) id size st = notFound) ∧
    (getFile env (.object user) id size st = .json 400 (.error "A folder doesn't have content") →
      getFilePasses user id st = true ∧
        ∃ f, getFileLookup id st = some f ∧ f.type = .str "folder") ∧
    (∀ (id' size' : JsVal) (st' : State) (f : FileDoc),
      (∀ g ∈ st.files, g._id ≠ sanitizedObjectId id) →
      distinctIds st'.files → f ∈ st'.files → f._id = sanitizedObjectId id' →
      f.isPublic.truthy = false → user ≠ some f.userId →
      getFile env (.object user) id size st = notFound ∧
        getFile env (.object user) id' size' st' = getFile env (.object user) id size st) := by
  have hpass : getFilePasses user id st = true ↔
      ∃ f, getFileLookup id st = some f ∧ (f.isPublic.truthy = true ∨ user = some f.userId) := by
    unfold getFilePasses
    rw [Bool.not_eq_true', getFileDenied_false_iff]
  have hnone : getFileLookup id st = none ↔ ∀ f ∈ st.files, f._id ≠ sanitizedObjectId id := by
    unfold getFileLookup
    rw [findOne_none_iff]
    simp
  have hsome : ∀ f, getFileLookup id st = some f → f ∈ st.files ∧ f._id = sanitizedObjectId id := by
    intro f hf
    have := findOne_some _ _ _ hf
    simpa using this
  have hmem : distinctIds st.files →
      (getFilePasses user id st = true ↔
        ∃ f ∈ st.files, f._id = sanitizedObjectId id ∧
          (f.isPublic.truthy = true ∨ user = some f.userId)) := by
    intro hd
    rw [hpass]
    constructor
    · rintro ⟨f, hf, hv⟩
      exact ⟨f, (hsome f hf).1, (hsome f hf).2, hv⟩
    · rintro ⟨f, hf, hk, hv⟩
      exact ⟨f, findOne_id_of_mem _ _ hd f hf hk, hv⟩
  refine ⟨hpass, hnone, hsome, ?_, hmem, ?_, getFile_of_denied env user id size st, ?_, ?_⟩
  · intro f hf
    rw [hf]
    exact sanitizedObjectId_toHexString f._id
  · intro hd hnull
    rw [hmem hd]
    constructor
    · rintro ⟨f, hf, hk, hv⟩
      refine ⟨?_, f, hf, hk, hv⟩
      cases hval : isValidId id with
      | true => rfl
      | false =>
        rw [sanitizedObjectId_of_invalid id hval] at hk
        exact absurd hk (hnull f hf)
    · rintro ⟨_, h⟩
      exact h
  · intro h
    cases hp : getFilePasses user id st with
    | false =>
      rw [getFile_of_denied env user id size st hp] at h
      exact absurd h (by decide)
    | true =>
      refine ⟨rfl, ?_⟩
      obtain ⟨f, hf, _⟩ := hpass.1 hp
      refine ⟨f, hf, ?_⟩
      unfold getFilePasses at hp
      simp only [Bool.not_eq_true'] at hp
      unfold getFile at h
      simp only [hp, hf, Bool.false_eq_true, if_false] at h
      by_cases ht : f.type = .str "folder"
      · exact ht
      · simp only [beq_iff_eq, ht, if_false] at h
        revert h
        repeat' split
        all_goals simp [notFound]
  · intro id' size' st' f habs hd hf hk hpriv hown
    have h1 : getFilePasses user id st = false := by
      cases hp : getFilePasses user id st with
      | false => rfl
      | true =>
        obtain ⟨g, hg, _⟩ := hpass.1 hp
        exact absurd (hsome g hg).2 (habs g (hsome g hg).1)
    have h2 : getFilePasses user id' st' = false := by
      unfold getFilePasses getFileLookup
      rw [findOne_id_of_mem _ _ hd f hf hk]
      have hne := (getFileUserId_ne_iff user f.userId).2 hown
      simp [getFileDenied, hpriv, hne]
    rw [getFile_of_denied env user id size st h1, getFile_of_denied env user id' size' st' h2]
    exact ⟨rfl, rfl⟩
theorem getFile_gate_witness :
    getFilePasses (some otherUser) (.str "5f1e8896c7ba06511e683b25") sampleState2 = false ∧
      getFile sampleEnv (.object (some otherUser)) (.str "5f1e8896c7ba06511e683b25") .undefined
        sampleState2 = notFound ∧
      getFile sampleEnv (.object (some sampleUser)) (.str "5f1e8896c7ba06511e683b25") .undefined
        sampleState2 = .json 400 (.error "A folder doesn't have content") :=
  ⟨by decide,
    (getFile_gate sampleEnv (some otherUser) (.str "5f1e8896c7ba06511e683b25") .undefined
      sampleState2).2.2.2.2.2.2.1 (by decide),
    by decide⟩

/-- C1 as stated fails: an upload with `isPublic` the string `'false'` is accepted and
stored as given; the entity is neither public in the sense of `isPublic` being true
nor owned by the caller, and yet a stranger passes the gate and is served the file.
When `req.user` is not set the handler throws instead of answering 404. -/
theorem getFile_string_isPublic_passes :
    Reachable sampleEnv stringPublicState ∧
    (postUpload sampleEnv sampleFileId "2b3f0d4a" sampleUser stringPublicBody
      State.empty).1.status = some 201 ∧
    (∀ f ∈ stringPublicState.files, f.isPublic ≠ .bool true ∧ f.userId ≠ otherUser) ∧
    getFilePasses (some otherUser) (.str "5f1e881cc7ba06511e683b23") stringPublicState = true ∧
    (getFile sampleEnv (.object (some otherUser)) (.str "5f1e881cc7ba06511e683b23") .undefined
      stringPublicState).status = some 200 ∧
    getFilePasses none (.str "5f1e881cc7ba06511e683b23") stringPublicState = true ∧
    getFile sampleEnv .unset (.str "5f1e881cc7ba06511e683b23") .undefined stringPublicState
      = .threw "TypeError" := by
  refine ⟨?_, ?_, ?_, ?_, ?_, ?_, ?_⟩
  · exact Reachable.step State.empty stringPublicState (Reachable.init State.empty rfl)
      (Step.upload sampleFileId "2b3f0d4a" sampleUser stringPublicBody State.empty
        ⟨by decide, by decide⟩)
  all_goals decide

/-! ## The visibility toggle -/

theorem fileFilter_iff (user : ObjectId) (id : JsVal) (f : FileDoc) :
    fileFilter user id f = true ↔ f._id = sanitizedObjectId id ∧ f.userId = user := by
  unfold fileFilter
  rw [sanitizedObjectId_toHexString]
  simp

theorem setPublic_eq (v : Bool) (user : ObjectId) (id : JsVal) (st : State) :
    setPublic v user id st =
      match findOne (fileFilter user id) st.files with
      | none => (notFound, st)
      | some file =>
        (.json 200 (.file
          { id := id, userId := user.toHexString, name := file.name, type := file.type,
            isPublic := .bool v, parentId := parentIdView file.parentId }),
         { st with
            files := updateOne (fileFilter user id) (fun f => { f with isPublic := .bool v })
              st.files }) := by
  cases v <;> simp only [setPublic, putPublish, putUnpublish, if_true, Bool.false_eq_true, if_false]

theorem findOne_updateOne (p : FileDoc → Bool) (upd : FileDoc → FileDoc)
    (hp : ∀ f, p (upd f) = p f) (files : List FileDoc) :
    findOne p (updateOne p upd files) = (findOne p files).map upd := by
  unfold findOne
  induction files with
  | nil => rfl
  | cons g gs ih =>
    by_cases hg : p g = true
    · simp [updateOne, List.find?_cons, hg, hp]
    · simp only [Bool.not_eq_true] at hg
      simp [updateOne, List.find?_cons, hg, ih]

theorem updateOne_idem (p : FileDoc → Bool) (upd : FileDoc → FileDoc)
    (hp : ∀ f, p (upd f) = p f) (hu : ∀ f, upd (upd f) = upd f) (files : List FileDoc) :
    updateOne p upd (updateOne p upd files) = updateOne p upd files := by
  induction files with
  | nil => rfl
  | cons g gs ih =>
    by_cases hg : p g = true
    · simp [updateOne, hg, hp, hu]
    · simp only [Bool.not_eq_true] at hg
      simp [updateOne, hg, ih]

theorem updateOne_split (p : FileDoc → Bool) (upd : FileDoc → FileDoc) (files : List FileDoc)
    (file : FileDoc) (h : findOne p files = some file) :
    ∃ pre post, files = pre ++ file :: post ∧ (∀ g ∈ pre, p g = false) ∧
      updateOne p upd files = pre ++ upd file :: post := by
  unfold findOne at h
  induction files with
  | nil => simp at h
  | cons g gs ih =>
    by_cases hg : p g = true
    · rw [List.find?_cons, hg] at h
      simp only [Option.some.injEq] at h
      subst h
      exact ⟨[], gs, rfl, by simp, by simp [updateOne, hg]⟩
    · simp only [Bool.not_eq_true] at hg
      rw [List.find?_cons, hg] at h
      obtain ⟨pre, post, h1, h2, h3⟩ := ih h
      refine ⟨g :: pre, post, by rw [h1]; rfl, ?_, by simp [updateOne, hg, h3]⟩
      intro x hx
      rcases List.mem_cons.1 hx with hx | hx
      · rw [hx]; exact hg
      · exact h2 x hx

/-- C10: the visibility toggle applied twice gives the response and the final state
of applying it once; on success the matched entity gets `isPublic = v` and nothing
else changes; when no entity matches the id and the principal the answer is 404 and
the state is unchanged. -/
theorem setPublic_idempotent (v : Bool) (user : ObjectId) (id : JsVal) (st : State) :
    setPublic v user id (setPublic v user id st).2 = setPublic v user id st ∧
    (∀ f ∈ st.files, f._id = sanitizedObjectId id → f.userId = user →
      ∃ file pre post, st.files = pre ++ file :: post ∧
        file._id = sanitizedObjectId id ∧ file.userId = user ∧
        (∀ g ∈ pre, ¬ (g._id = sanitizedObjectId id ∧ g.userId = user)) ∧
        setPublic v user id st =
          (.json 200 (.file
            { id := id, userId := user.toHexString, name := file.name, type := file.type,
              isPublic := .bool v, parentId := parentIdView file.parentId }),
           { st with files := pre ++ { file with isPublic := .bool v } :: post })) ∧
    ((∀ f ∈ st.files, ¬ (f._id = sanitizedObjectId id ∧ f.userId = user)) →
      setPublic v user id st = (notFound, st)) := by
  have hp : ∀ f : FileDoc, fileFilter user id { f with isPublic := .bool v } = fileFilter user id f :=
    fun f => rfl
  have hu : ∀ f : FileDoc,
      ({ ({ f with isPublic := .bool v } : FileDoc) with isPublic := .bool v } : FileDoc)
        = { f with isPublic := .bool v } := fun f => rfl
  refine ⟨?_, ?_, ?_⟩
  · rw [setPublic_eq v user id st]
    cases hfind : findOne (fileFilter user id) st.files with
    | none =>
      simp only
      rw [setPublic_eq, hfind]
    | some file =>
      simp only
      rw [setPublic_eq]
      simp only
      rw [findOne_updateOne _ _ hp, hfind]
      simp only [Option.map_some']
      rw [updateOne_idem _ _ hp hu]
  · intro f hf hk hown
    cases hfind : findOne (fileFilter user id) st.files with
    | none =>
      have := (findOne_none_iff _ _).1 hfind f hf
      rw [(fileFilter_iff user id f).2 ⟨hk, hown⟩] at this
      exact absurd this (by decide)
    | some file =>
      obtain ⟨pre, post, h1, h2, h3⟩ :=
        updateOne_split _ (fun f => { f with isPublic := .bool v }) _ _ hfind
      have hfile := (fileFilter_iff user id file).1 (findOne_some _ _ _ hfind).2
      refine ⟨file, pre, post, h1, hfile.1, hfile.2, ?_, ?_⟩
      · intro g hg hgm
        have := h2 g hg
        rw [(fileFilter_iff user id g).2 hgm] at this
        exact absurd this (by decide)
      · rw [setPublic_eq, hfind]
        simp only
        rw [h3]
  · intro h
    have hfind : findOne (fileFilter user id) st.files = none := by
      rw [findOne_none_iff]
      intro f hf
      cases hb : fileFilter user id f with
      | false => rfl
      | true => exact absurd ((fileFilter_iff user id f).1 hb) (h f hf)
    rw [setPublic_eq, hfind]
theorem setPublic_idempotent_witness :
    setPublic false sampleUser (.str "5f1e881cc7ba06511e683b23")
        (setPublic false sampleUser (.str "5f1e881cc7ba06511e683b23") sampleState2).2
      = setPublic false sampleUser (.str "5f1e881cc7ba06511e683b23") sampleState2 :=
  (setPublic_idempotent false sampleUser (.str "5f1e881cc7ba06511e683b23") sampleState2).1

/-! ## postUpload -/

theorem postUploadError_mem (body : UploadBody) (st : State) (msg : String)
    (h : postUploadError body st = some msg) :
    msg ∈ ["Missing name", "Missing type", "Missing data", "Parent not found",
      "Parent is not a folder"] := by
  revert h
  unfold postUploadError
  simp only []
  repeat' split
  all_goals simp
  all_goals (intro h; simp [← h])

theorem postUploadInsert_status (user : ObjectId) (body : UploadBody) (newFile : FileDoc)
    (st : State) : (postUploadInsert user body newFile st).1.status ≠ some 400 := by
  unfold postUploadInsert
  simp only []
  split <;> simp [Response.status]

theorem postUploadStore_status (env : Env) (uuid : String) (user : ObjectId) (body : UploadBody)
    (newFile : FileDoc) (st : State) :
    (postUploadStore env uuid user body newFile st).1.status ≠ some 400 := by
  unfold postUploadStore
  simp only []
  split
  · simp [Response.status]
  · exact postUploadInsert_status _ _ _ _

theorem postUpload_400_state (env : Env) (insertedId : ObjectId) (uuid : String)
    (user : ObjectId) (body : UploadBody) (st : State)
    (h : (postUpload env insertedId uuid user body st).1.status = some 400) :
    (postUpload env insertedId uuid user body st).2 = st ∧
      ∃ msg ∈ ["Missing name", "Missing type", "Missing data", "Parent not found",
          "Parent is not a folder"],
        (postUpload env insertedId uuid user body st).1 = .json 400 (.error msg) := by
  revert h
  unfold postUpload
  cases he : postUploadError body st with
  | some msg =>
    intro _
    exact ⟨rfl, msg, postUploadError_mem body st msg he, rfl⟩
  | none =>
    simp only
    cases postUploadNewFile env insertedId user body with
    | none => simp [Response.status]
    | some newFile =>
      simp only
      intro h
      exact absurd h (postUploadStore_status env uuid user body newFile st)
theorem VALID_FILE_TYPES_truthy (t : JsVal) (h : t ∈ VALID_FILE_TYPES) : t.truthy = true := by
  simp only [VALID_FILE_TYPES, List.mem_cons, List.mem_singleton, List.not_mem_nil, or_false] at h
  rcases h with h | h | h <;> subst h <;> decide

theorem postUploadError_name (body : UploadBody) (st : State) (h : body.name.truthy = false) :
    postUploadError body st = some "Missing name" := by
  unfold postUploadError
  simp [h]

theorem postUploadError_type (body : UploadBody) (st : State) (hn : body.name.truthy = true)
    (h : body.type.truthy = false ∨ body.type ∉ VALID_FILE_TYPES) :
    postUploadError body st = some "Missing type" := by
  unfold postUploadError
  have : (!body.type.truthy || !VALID_FILE_TYPES.contains body.type) = true := by
    rcases h with h | h
    · simp [h]
    · simp [h]
  simp only [hn, this, Bool.not_true, Bool.false_eq_true, if_false, if_true]

theorem postUploadError_data (body : UploadBody) (st : State) (hn : body.name.truthy = true)
    (ht : body.type ∈ VALID_FILE_TYPES) (hd : body.data.truthy = false)
    (hf : body.type ≠ .str "folder") :
    postUploadError body st = some "Missing data" := by
  unfold postUploadError
  have h1 : (!body.type.truthy || !VALID_FILE_TYPES.contains body.type) = false := by
    simp [VALID_FILE_TYPES_truthy _ ht, ht]
  have h2 : (!body.data.truthy && body.type != .str "folder") = true := by
    simp [hd, hf]
  simp only [hn, h1, h2, Bool.not_true, Bool.false_eq_true, if_false, if_true]

theorem postUploadError_of_checks (body : UploadBody) (st : State) (h : passesFieldChecks body) :
    postUploadError body st =
      if uploadParentId body != ROOT_FOLDER_ID && uploadParentId body != ROOT_FOLDER_ID_STRING then
        match findOne (fun f => f._id == sanitizedObjectId (uploadParentId body)) st.files with
        | none => some "Parent not found"
        | some file =>
          if file.type != .str "folder" then some "Parent is not a folder" else none
      else none := by
  obtain ⟨hn, ht, hd⟩ := h
  unfold postUploadError uploadParentId
  have h1 : (!body.type.truthy || !VALID_FILE_TYPES.contains body.type) = false := by
    simp [VALID_FILE_TYPES_truthy _ ht, ht]
  have h2 : (!body.data.truthy && body.type != .str "folder") = false := by
    rcases hd with hd | hd
    · simp [hd]
    · simp [hd]
  simp only [hn, h1, h2, Bool.not_true, Bool.false_eq_true, if_false]

theorem not_root_bne (body : UploadBody) (h : ¬ isRootParent body) :
    (uploadParentId body != ROOT_FOLDER_ID && uploadParentId body != ROOT_FOLDER_ID_STRING)
      = true := by
  unfold isRootParent at h
  simp only [not_or] at h
  simp [h.1, h.2]

theorem root_bne (body : UploadBody) (h : isRootParent body) :
    (uploadParentId body != ROOT_FOLDER_ID && uploadParentId body != ROOT_FOLDER_ID_STRING)
      = false := by
  unfold isRootParent at h
  rcases h with h | h <;> simp [h]

theorem root_beq (body : UploadBody) (h : isRootParent body) :
    (uploadParentId body == ROOT_FOLDER_ID || uploadParentId body == ROOT_FOLDER_ID_STRING)
      = true := by
  unfold isRootParent at h
  rcases h with h | h <;> simp [h]

theorem not_root_beq (body : UploadBody) (h : ¬ isRootParent body) :
    (uploadParentId body == ROOT_FOLDER_ID || uploadParentId body == ROOT_FOLDER_ID_STRING)
      = false := by
  unfold isRootParent at h
  simp only [not_or] at h
  simp [h.1, h.2]

theorem postUploadError_parent_missing (body : UploadBody) (st : State)
    (h : passesFieldChecks body) (hr : ¬ isRootParent body)
    (hm : ∀ f ∈ st.files, f._id ≠ sanitizedObjectId (uploadParentId body)) :
    postUploadError body st = some "Parent not found" := by
  rw [postUploadError_of_checks body st h, not_root_bne body hr]
  have : findOne (fun f => f._id == sanitizedObjectId (uploadParentId body)) st.files = none := by
    rw [findOne_none_iff]
    intro f hf
    simp [hm f hf]
  simp [this]

theorem postUploadError_parent_found (body : UploadBody) (st : State)
    (h : passesFieldChecks body) (hr : ¬ isRootParent body) (f : FileDoc)
    (hf : findOne (fun f => f._id == sanitizedObjectId (uploadParentId body)) st.files = some f) :
    postUploadError body st =
      if f.type != .str "folder" then some "Parent is not a folder" else none := by
  rw [postUploadError_of_checks body st h, not_root_bne body hr]
  simp [hf]

theorem postUploadError_root (body : UploadBody) (st : State)
    (h : passesFieldChecks body) (hr : isRootParent body) :
    postUploadError body st = none := by
  rw [postUploadError_of_checks body st h, root_bne body hr]
  simp

theorem postUpload_of_error (env : Env) (insertedId : ObjectId) (uuid : String)
    (user : ObjectId) (body : UploadBody) (st : State) (msg : String)
    (h : postUploadError body st = some msg) :
    postUpload env insertedId uuid user body st = (.json 400 (.error msg), st) := by
  unfold postUpload
  rw [h]

/-- What `postUpload` builds when the checks pass and the parent is the root or a valid id. -/
theorem postUploadNewFile_eq (env : Env) (insertedId : ObjectId) (user : ObjectId)
    (body : UploadBody) (hp : isRootParent body ∨ isValidId (uploadParentId body) = true) :
    postUploadNewFile env insertedId user body =
      some { _id := insertedId, userId := user, name := body.name, type := body.type,
             isPublic := body.isPublic.or (.bool false),
             parentId := if uploadParentId body == ROOT_FOLDER_ID
                 || uploadParentId body == ROOT_FOLDER_ID_STRING then ParentRef.root
               else ParentRef.oid (sanitizedObjectId (uploadParentId body)),
             localPath := none } := by
  unfold postUploadNewFile
  simp only [ObjectId.new_toHexString]
  by_cases hr : isRootParent body
  · have := root_beq body hr
    unfold uploadParentId at this
    simp [this, uploadParentId]
  · have hv : isValidId (uploadParentId body) = true := by
      rcases hp with hp | hp
      · exact absurd hp hr
      · exact hp
    have := not_root_beq body hr
    unfold uploadParentId at this hv
    simp [this, uploadParentId, ObjectId.new_of_valid env _ hv]

theorem mkDirAsync_files (dir : String) (st : State) : (mkDirAsync dir st).files = st.files := by
  unfold mkDirAsync
  split <;> rfl

theorem postUploadWrite_some (env : Env) (uuid : String) (body : UploadBody)
    (newFile : FileDoc) (st st2 : State) (nf : FileDoc)
    (h : postUploadWrite env uuid body newFile st = some (st2, nf)) :
    st2.files = st.files ∧ ∃ path, nf = { newFile with localPath := path } := by
  unfold postUploadWrite at h
  simp only [] at h
  split at h
  · split at h
    · simp only [Option.some.injEq, Prod.mk.injEq] at h
      rw [← h.1, ← h.2]
      exact ⟨rfl, _, rfl⟩
    · simp at h
  · simp only [Option.some.injEq, Prod.mk.injEq] at h
    rw [← h.1, ← h.2]
    exact ⟨rfl, newFile.localPath, rfl⟩

theorem insertOne_of_fresh (doc : FileDoc) (files : List FileDoc)
    (h : ∀ f ∈ files, f._id ≠ doc._id) : insertOne doc files = some (files ++ [doc]) := by
  unfold insertOne
  have : (files.any fun f => f._id == doc._id) = false := by
    rw [List.any_eq_false]
    intro f hf
    simp [h f hf]
  simp [this]

theorem insertOne_eq_some (doc : FileDoc) (files files' : List FileDoc)
    (h : insertOne doc files = some files') :
    files' = files ++ [doc] ∧ ∀ f ∈ files, f._id ≠ doc._id := by
  unfold insertOne at h
  split at h
  · simp at h
  · rename_i hany
    simp only [Option.some.injEq] at h
    refine ⟨h.symm, ?_⟩
    intro f hf hid
    apply hany
    rw [List.any_eq_true]
    exact ⟨f, hf, by simp [hid]⟩

/-- The insert of `postUpload`: either the collection rejects the id and the handler
throws, or the document is added and the answer is 201. -/
theorem postUploadInsert_cases (user : ObjectId) (body : UploadBody) (newFile : FileDoc)
    (st : State) :
    ((postUploadInsert user body newFile st).1 = .threw "MongoError" ∧
      (postUploadInsert user body newFile st).2 = st) ∨
    ((∀ f ∈ st.files, f._id ≠ newFile._id) ∧
      (postUploadInsert user body newFile st).2.files = st.files ++ [newFile] ∧
      ∃ view, (postUploadInsert user body newFile st).1 = .json 201 (.file view) ∧
        view.id = .str newFile._id.toHexString) := by
  unfold postUploadInsert
  simp only []
  cases hi : insertOne newFile st.files with
  | none => exact Or.inl ⟨rfl, rfl⟩
  | some files =>
    obtain ⟨h1, h2⟩ := insertOne_eq_some _ _ _ hi
    right
    refine ⟨h2, ?_, _, rfl, rfl⟩
    simp only []
    split <;> exact h1

theorem postUploadStore_ok (env : Env) (uuid : String) (user : ObjectId) (body : UploadBody)
    (newFile : FileDoc) (st : State) (hfresh : ∀ f ∈ st.files, f._id ≠ newFile._id)
    (hd : body.type = .str "folder" ∨ ∃ text, body.data = .str text ∧ text ≠ "") :
    ∃ view st', postUploadStore env uuid user body newFile st = (.json 201 (.file view), st') := by
  have hw : ∃ r, postUploadWrite env uuid body newFile (mkDirAsync env.baseDir st) = some r := by
    unfold postUploadWrite
    by_cases hf : body.type = .str "folder"
    · simp [hf]
    · rcases hd with hd | ⟨text, hd, hne⟩
      · exact absurd hd hf
      · have : body.data.or (.str "") = .str text := by
          simp [JsVal.or, hd, JsVal.truthy, hne]
        simp [this, hf]
  obtain ⟨⟨st2, nf⟩, hw⟩ := hw
  obtain ⟨hfiles, path, hnf⟩ := postUploadWrite_some env uuid body newFile _ st2 nf hw
  unfold postUploadStore
  simp only [hw]
  rcases postUploadInsert_cases user body nf st2 with ⟨h1, h2⟩ | ⟨_, _, view, h3, _⟩
  · exfalso
    have hins : insertOne nf st2.files = some (st2.files ++ [nf]) := by
      apply insertOne_of_fresh
      rw [hfiles, mkDirAsync_files, hnf]
      exact hfresh
    unfold postUploadInsert at h1
    simp only [hins] at h1
    simp at h1
  · exact ⟨view, _, Prod.ext h3 rfl⟩

/-- C8: an upload answered with status 400 leaves the state as it was: no document
inserted, nothing written to the storage directory, no job queued; the answer is
then one of the five error messages. -/
theorem postUpload_rejected_unchanged (env : Env) (insertedId : ObjectId) (uuid : String)
    (user : ObjectId) (body : UploadBody) (st : State)
    (h : (postUpload env insertedId uuid user body st).1.status = some 400) :
    (postUpload env insertedId uuid user body st).2 = st ∧
    (postUpload env insertedId uuid user body st).2.files = st.files ∧
    (postUpload env insertedId uuid user body st).2.dirs = st.dirs ∧
    (postUpload env insertedId uuid user body st).2.disk = st.disk ∧
    (postUpload env insertedId uuid user body st).2.queue = st.queue ∧
    ∃ msg ∈ ["Missing name", "Missing type", "Missing data", "Parent not found",
        "Parent is not a folder"],
      (postUpload env insertedId uuid user body st).1 = .json 400 (.error msg) := by
  obtain ⟨h1, h2⟩ := postUpload_400_state env insertedId uuid user body st h
  exact ⟨h1, congrArg State.files h1, congrArg State.dirs h1, congrArg State.disk h1,
    congrArg State.queue h1, h2⟩

theorem postUpload_rejected_unchanged_witness :
    (postUpload sampleEnv sampleFileId "2b3f0d4a" sampleUser sampleFileBody State.empty).1.status
        = some 400 ∧
      (postUpload sampleEnv sampleFileId "2b3f0d4a" sampleUser sampleFileBody State.empty).2
        = State.empty :=
  ⟨by decide,
    (postUpload_rejected_unchanged sampleEnv sampleFileId "2b3f0d4a" sampleUser sampleFileBody
      State.empty (by decide)).1⟩

/-- C2, as the code has it: a failing check is answered with status 400 and the message
of the first failing check, in the order name, type, data, parent found, parent is a
folder; when no check fails the answer is 201 provided the data of an upload that is
not a folder is a string, a parent other than the root is a valid id, and the
collection accepts the insert, the generated id not being in use. -/
theorem postUpload_checks (env : Env) (insertedId : ObjectId) (uuid : String)
    (user : ObjectId) (body : UploadBody) (st : State) :
    (body.name.truthy = false →
      postUpload env insertedId uuid user body st = (.json 400 (.error "Missing name"), st)) ∧
    (body.name.truthy = true → (body.type.truthy = false ∨ body.type ∉ VALID_FILE_TYPES) →
      postUpload env insertedId uuid user body st = (.json 400 (.error "Missing type"), st)) ∧
    (body.name.truthy = true → body.type ∈ VALID_FILE_TYPES → body.data.truthy = false →
      body.type ≠ .str "folder" →
      postUpload env insertedId uuid user body st = (.json 400 (.error "Missing data"), st)) ∧
    (passesFieldChecks body → ¬ isRootParent body →
      (∀ f ∈ st.files, f._id ≠ sanitizedObjectId (uploadParentId body)) →
      postUpload env insertedId uuid user body st
        = (.json 400 (.error "Parent not found"), st)) ∧
    (passesFieldChecks body → ¬ isRootParent body → distinctIds st.files →
      ∀ f ∈ st.files, f._id = sanitizedObjectId (uploadParentId body) →
        f.type ≠ .str "folder" →
        postUpload env insertedId uuid user body st
          = (.json 400 (.error "Parent is not a folder"), st)) ∧
    (passesFieldChecks body → ¬ isRootParent body → distinctIds st.files →
      ∀ f ∈ st.files, f._id = sanitizedObjectId (uploadParentId body) →
        (f.type = .str "file" ∨ f.type = .str "image") →
        postUpload env insertedId uuid user body st
          = (.json 400 (.error "Parent is not a folder"), st)) ∧
    (passesFieldChecks body → (∀ f ∈ st.files, f._id ≠ insertedId) →
      (isRootParent body ∨
        (isValidId (uploadParentId body) = true ∧
          ∃ f ∈ st.files, f._id = sanitizedObjectId (uploadParentId body) ∧
            f.type = .str "folder" ∧ distinctIds st.files)) →
      (body.type = .str "folder" ∨ ∃ text, body.data = .str text) →
      ∃ view st', postUpload env insertedId uuid user body st
        = (.json 201 (.file view), st')) := by
  have hnotfolder : passesFieldChecks body → ¬ isRootParent body → distinctIds st.files →
      ∀ f ∈ st.files, f._id = sanitizedObjectId (uploadParentId body) →
        f.type ≠ .str "folder" →
        postUpload env insertedId uuid user body st
          = (.json 400 (.error "Parent is not a folder"), st) := by
    intro hc hr hd f hf hk ht
    apply postUpload_of_error
    rw [postUploadError_parent_found body st hc hr f (findOne_id_of_mem _ _ hd f hf hk)]
    simp [ht]
  refine ⟨?_, ?_, ?_, ?_, hnotfolder, ?_, ?_⟩
  · intro h
    exact postUpload_of_error _ _ _ _ _ _ _ (postUploadError_name body st h)
  · intro hn h
    exact postUpload_of_error _ _ _ _ _ _ _ (postUploadError_type body st hn h)
  · intro hn ht hd hf
    exact postUpload_of_error _ _ _ _ _ _ _ (postUploadError_data body st hn ht hd hf)
  · intro hc hr hm
    exact postUpload_of_error _ _ _ _ _ _ _ (postUploadError_parent_missing body st hc hr hm)
  · intro hc hr hd f hf hk ht
    apply hnotfolder hc hr hd f hf hk
    rcases ht with ht | ht <;> rw [ht] <;> decide
  · intro hc hfresh hp hdata
    have herr : postUploadError body st = none := by
      rcases hp with hr | ⟨_, f, hf, hk, ht, hd⟩
      · exact postUploadError_root body st hc hr
      · by_cases hr : isRootParent body
        · exact postUploadError_root body st hc hr
        · rw [postUploadError_parent_found body st hc hr f (findOne_id_of_mem _ _ hd f hf hk)]
          simp [ht]
    have hnew := postUploadNewFile_eq env insertedId user body
      (hp.elim Or.inl (fun h => Or.inr h.1))
    unfold postUpload
    rw [herr, hnew]
    simp only
    apply postUploadStore_ok _ _ _ _ _ _ hfresh
    rcases hdata with h | ⟨text, h⟩
    · exact Or.inl h
    · rcases hc.2.2 with hd | hd
      · refine Or.inr ⟨text, h, ?_⟩
        intro he
        rw [h, he] at hd
        exact absurd hd (by decide)
      · exact Or.inl hd

theorem postUpload_checks_witness :
    postUpload sampleEnv sampleFileId "2b3f0d4a" sampleUser sampleFileBody State.empty
      = (.json 400 (.error "Parent not found"), State.empty) :=
  (postUpload_checks sampleEnv sampleFileId "2b3f0d4a" sampleUser sampleFileBody
    State.empty).2.2.2.1 (by unfold passesFieldChecks; decide) (by unfold isRootParent; decide)
    (by intro f hf; cases hf)

/-- C2 as stated fails: every check passes for an upload at the root whose data is the
number 5, and yet the handler throws instead of answering 201. -/
theorem postUpload_number_data_throws :
    passesFieldChecks numberDataBody ∧ isRootParent numberDataBody ∧
      postUploadError numberDataBody State.empty = none ∧
      (postUpload sampleEnv sampleFileId "2b3f0d4a" sampleUser numberDataBody State.empty).1
        = .threw "TypeError" ∧
      (postUpload sampleEnv sampleFileId "2b3f0d4a" sampleUser numberDataBody
        State.empty).1.status ≠ some 201 := by
  refine ⟨?_, ?_, ?_, ?_, ?_⟩
  · unfold passesFieldChecks; decide
  · unfold isRootParent; decide
  · decide
  · decide
  · decide
/-! ## Invalid ids -/

theorem sanitizedObjectId_or_null (id : JsVal) (h : isValidId id = false) :
    sanitizedObjectId (id.or (.str NULL_ID)) = nullObjectId := by
  unfold JsVal.or
  split
  · exact sanitizedObjectId_of_invalid id h
  · unfold sanitizedObjectId nullObjectId
    simp

theorem findOne_null_none (p : FileDoc → Bool) (files : List FileDoc) (hnull : noNullId files)
    (hp : ∀ f, p f = true → f._id = nullObjectId) : findOne p files = none := by
  rw [findOne_none_iff]
  intro f hf
  cases h : p f with
  | false => rfl
  | true => exact absurd (hp f h) (hnull f hf)

/-- For an id that `isValidId` rejects the lookups use the all-zero id and miss in a
collection that does not hold it. -/
theorem invalid_id_lookup_misses (env : Env) (user : ObjectId) (caller : Option ObjectId)
    (id size : JsVal) (st : State) (hinv : isValidId id = false) (hnull : noNullId st.files) :
    sanitizedObjectId id = nullObjectId ∧
    nullObjectId.toHexString = NULL_ID ∧
    getShow user id st = notFound ∧
    putPublish user id st = (notFound, st) ∧
    putUnpublish user id st = (notFound, st) ∧
    getFile env (.object caller) id size st = notFound ∧
    (∀ (insertedId : ObjectId) (uuid : String) (body : UploadBody),
      passesFieldChecks body → body.parentId = id → ¬ isRootParent body →
      postUpload env insertedId uuid user body st
        = (.json 400 (.error "Parent not found"), st)) := by
  have hkey := sanitizedObjectId_of_invalid id hinv
  have hfilter : findOne (fileFilter user id) st.files = none :=
    findOne_null_none _ _ hnull (fun f hf => by
      rw [← hkey]; exact ((fileFilter_iff user id f).1 hf).1)
  refine ⟨hkey, by decide, ?_, ?_, ?_, ?_, ?_⟩
  · unfold getShow
    have : findOne (fileFilter user (id.or (.str NULL_ID))) st.files = none :=
      findOne_null_none _ _ hnull (fun f hf => by
        rw [← sanitizedObjectId_or_null id hinv]
        exact ((fileFilter_iff user _ f).1 hf).1)
    simp only [this]
  · unfold putPublish
    simp only [hfilter]
  · unfold putUnpublish
    simp only [hfilter]
  · apply getFile_of_denied
    unfold getFilePasses getFileLookup
    have : findOne (fun f => f._id == sanitizedObjectId id) st.files = none :=
      findOne_null_none _ _ hnull (fun f hf => by
        rw [← hkey]; simpa using hf)
    rw [this]
    rfl
  · intro insertedId uuid body hc hb hr
    apply postUpload_of_error
    apply postUploadError_parent_missing body st hc hr
    have hpid : uploadParentId body = id := by
      unfold uploadParentId JsVal.or
      rw [hb]
      split
      · rfl
      · rename_i ht
        exfalso
        apply hr
        left
        unfold uploadParentId JsVal.or
        rw [hb]
        simp [ht]
    rw [hpid, hkey]
    exact hnull

/-! ## Upload followed by getShow -/

theorem postUploadNewFile_unfold (env : Env) (insertedId : ObjectId) (user : ObjectId)
    (body : UploadBody) :
    postUploadNewFile env insertedId user body =
      (if uploadParentId body == ROOT_FOLDER_ID || uploadParentId body == ROOT_FOLDER_ID_STRING
        then some ParentRef.root
        else (ObjectId.new env (uploadParentId body)).map ParentRef.oid).map
      (fun parentRef =>
        { _id := insertedId, userId := user, name := body.name, type := body.type,
          isPublic := body.isPublic.or (.bool false), parentId := parentRef,
          localPath := none }) := by
  unfold postUploadNewFile uploadParentId
  simp only [ObjectId.new_toHexString]
  split <;> simp_all

theorem postUploadNewFile_some (env : Env) (insertedId : ObjectId) (user : ObjectId)
    (body : UploadBody) (newFile : FileDoc)
    (h : postUploadNewFile env insertedId user body = some newFile) :
    newFile._id = insertedId ∧ newFile.userId = user ∧ newFile.name = body.name ∧
      newFile.type = body.type ∧ newFile.isPublic = body.isPublic.or (.bool false) ∧
      (isRootParent body → newFile.parentId = .root) ∧
      (¬ isRootParent body →
        ∃ o, ObjectId.new env (uploadParentId body) = some o ∧ newFile.parentId = .oid o) := by
  rw [postUploadNewFile_unfold] at h
  by_cases hr : isRootParent body
  · rw [root_beq body hr] at h
    simp only [if_true, Option.map_some', Option.some.injEq] at h
    subst h
    exact ⟨rfl, rfl, rfl, rfl, rfl, fun _ => rfl, fun h => absurd hr h⟩
  · rw [not_root_beq body hr] at h
    simp only [Bool.false_eq_true, if_false] at h
    cases ho : ObjectId.new env (uploadParentId body) with
    | none => rw [ho] at h; simp at h
    | some o =>
      rw [ho] at h
      simp only [Option.map_some', Option.some.injEq] at h
      subst h
      exact ⟨rfl, rfl, rfl, rfl, rfl, fun h => absurd h hr, fun _ => ⟨o, rfl, rfl⟩⟩

/-- The files collection after the storing part of `postUpload`: unchanged when
the handler throws, otherwise extended by the new document, whose id was not in use. -/
theorem postUploadStore_cases (env : Env) (uuid : String) (user : ObjectId) (body : UploadBody)
    (newFile : FileDoc) (st : State) :
    ((∃ what, (postUploadStore env uuid user body newFile st).1 = .threw what) ∧
      (postUploadStore env uuid user body newFile st).2.files = st.files) ∨
    (∃ path view,
      (∀ f ∈ st.files, f._id ≠ newFile._id) ∧
      (postUploadStore env uuid user body newFile st).2.files
        = st.files ++ [{ newFile with localPath := path }] ∧
      (postUploadStore env uuid user body newFile st).1 = .json 201 (.file view) ∧
      view.id = .str newFile._id.toHexString) := by
  unfold postUploadStore
  simp only []
  cases hw : postUploadWrite env uuid body newFile (mkDirAsync env.baseDir st) with
  | none =>
    left
    exact ⟨⟨_, rfl⟩, mkDirAsync_files _ _⟩
  | some r =>
    obtain ⟨st2, nf⟩ := r
    obtain ⟨h1, path, h2⟩ := postUploadWrite_some env uuid body newFile _ st2 nf hw
    simp only []
    rcases postUploadInsert_cases user body nf st2 with ⟨h3, h4⟩ | ⟨h3, h4, view, h5, h6⟩
    · left
      refine ⟨⟨_, h3⟩, ?_⟩
      rw [h4, h1, mkDirAsync_files]
    · right
      refine ⟨path, view, ?_, ?_, h5, ?_⟩
      · rw [h1, mkDirAsync_files, h2] at h3
        exact h3
      · rw [h4, h1, mkDirAsync_files, h2]
      · rw [h6, h2]

theorem postUploadStore_201 (env : Env) (uuid : String) (user : ObjectId) (body : UploadBody)
    (newFile : FileDoc) (st : State) (view : FileView) (st' : State)
    (h : postUploadStore env uuid user body newFile st = (.json 201 (.file view), st')) :
    (∃ path, st'.files = st.files ++ [{ newFile with localPath := path }]) ∧
      view.id = .str newFile._id.toHexString ∧ ∀ f ∈ st.files, f._id ≠ newFile._id := by
  rcases postUploadStore_cases env uuid user body newFile st with
    ⟨⟨what, h1⟩, _⟩ | ⟨path, v, h0, h1, h2, h3⟩
  · rw [h] at h1
    simp at h1
  · rw [h] at h1 h2
    simp only [Response.json.injEq, Body.file.injEq, true_and] at h2
    exact ⟨⟨path, h1⟩, by rw [h2]; exact h3, h0⟩

theorem postUpload_201 (env : Env) (insertedId : ObjectId) (uuid : String) (user : ObjectId)
    (body : UploadBody) (st : State) (view : FileView) (st' : State)
    (h : postUpload env insertedId uuid user body st = (.json 201 (.file view), st')) :
    postUploadError body st = none ∧
      ∃ newFile, postUploadNewFile env insertedId user body = some newFile ∧
        (∃ path, st'.files = st.files ++ [{ newFile with localPath := path }]) ∧
        view.id = .str insertedId.toHexString ∧ ∀ f ∈ st.files, f._id ≠ insertedId := by
  unfold postUpload at h
  cases he : postUploadError body st with
  | some msg => rw [he] at h; simp at h
  | none =>
    rw [he] at h
    simp only at h
    cases hn : postUploadNewFile env insertedId user body with
    | none => rw [hn] at h; simp at h
    | some newFile =>
      rw [hn] at h
      simp only at h
      have := postUploadStore_201 env uuid user body newFile st view st' h
      have hid := (postUploadNewFile_some env insertedId user body newFile hn).1
      exact ⟨rfl, newFile, rfl, this.1, by rw [← hid]; exact this.2.1,
        by rw [← hid]; exact this.2.2⟩

/-- The folder that the parent check of an accepted upload has found. -/
theorem postUploadError_none_parent (body : UploadBody) (st : State)
    (he : postUploadError body st = none) (hr : ¬ isRootParent body) :
    ∃ parent ∈ st.files, parent._id = sanitizedObjectId (uploadParentId body) ∧
      parent.type = .str "folder" := by
  have hn : body.name.truthy = true := by
    cases hn : body.name.truthy with
    | true => rfl
    | false => rw [postUploadError_name body st hn] at he; simp at he
  have ht : body.type ∈ VALID_FILE_TYPES := by
    by_contra ht
    rw [postUploadError_type body st hn (Or.inr ht)] at he
    simp at he
  have hd : body.data.truthy = true ∨ body.type = .str "folder" := by
    by_contra hd
    simp only [not_or, Bool.not_eq_true] at hd
    rw [postUploadError_data body st hn ht hd.1 hd.2] at he
    simp at he
  have hc : passesFieldChecks body := ⟨hn, ht, hd⟩
  rw [postUploadError_of_checks body st hc, not_root_bne body hr] at he
  simp only [if_true] at he
  cases hf : findOne (fun f => f._id == sanitizedObjectId (uploadParentId body)) st.files with
  | none => rw [hf] at he; simp at he
  | some parent =>
    rw [hf] at he
    simp only at he
    have hs := findOne_some _ _ _ hf
    refine ⟨parent, hs.1, by simpa using hs.2, ?_⟩
    by_cases ht : parent.type = .str "folder"
    · exact ht
    · simp [ht] at he
theorem getShow_of_found (user : ObjectId) (id : JsVal) (st : State) (file : FileDoc)
    (hid : id.truthy = true) (h : findOne (fileFilter user id) st.files = some file) :
    getShow user id st = .json 200 (.file
      { id := id, userId := user.toHexString, name := file.name, type := file.type,
        isPublic := file.isPublic, parentId := parentIdView file.parentId }) := by
  unfold getShow
  have : id.or (.str NULL_ID) = id := by simp [JsVal.or, hid]
  simp only [this, h]

theorem findOne_append_fresh (p : FileDoc → Bool) (files : List FileDoc) (f : FileDoc)
    (hold : ∀ g ∈ files, p g = false) (hf : p f = true) :
    findOne p (files ++ [f]) = some f := by
  unfold findOne
  rw [List.find?_append, List.find?_eq_none.2 (fun g hg => by simp [hold g hg])]
  simp [List.find?_cons, hf]

/-- C6: after an accepted upload (201 with id `i`) by a principal, `getShow` by the
same principal with id `i` answers 200 with the submitted name and type, with the
submitted `isPublic` (`false` when none was given, as for any value that counts as
false), with `parentId` the number 0 when the upload addressed the root (no parent,
`0` or `'0'`), and otherwise the id of the parent folder as a string. -/
theorem getShow_after_postUpload (env : Env) (insertedId : ObjectId) (uuid : String)
    (user : ObjectId) (body : UploadBody) (st : State) (view : FileView) (st' : State)
    (h : postUpload env insertedId uuid user body st = (.json 201 (.file view), st')) :
    view.id = .str insertedId.toHexString ∧
    ∃ shown, getShow user view.id st' = .json 200 (.file shown) ∧
      shown.id = view.id ∧ shown.userId = user.toHexString ∧
      shown.name = body.name ∧ shown.type = body.type ∧
      shown.isPublic = body.isPublic.or (.bool false) ∧
      (∀ b, body.isPublic = .bool b → shown.isPublic = .bool b) ∧
      (body.isPublic = .undefined → shown.isPublic = .bool false) ∧
      ((body.parentId = .undefined ∨ body.parentId = .num 0 ∨ body.parentId = .str "0") →
        shown.parentId = .num 0) ∧
      (isRootParent body → shown.parentId = .num 0) ∧
      (¬ isRootParent body →
        ∃ parent ∈ st.files, parent._id = sanitizedObjectId (uploadParentId body) ∧
          parent.type = .str "folder" ∧
          ((isValidId (uploadParentId body) = true ∨ noNullId st.files) →
            shown.parentId = .str parent._id.toHexString)) := by
  obtain ⟨herr, newFile, hnew, ⟨path, hfiles⟩, hview, hfresh⟩ :=
    postUpload_201 env insertedId uuid user body st view st' h
  obtain ⟨h1, h2, h3, h4, h5, h6, h7⟩ := postUploadNewFile_some env insertedId user body newFile hnew
  refine ⟨hview, ?_⟩
  have htruthy : view.id.truthy = true := by
    rw [hview]
    simp [JsVal.truthy, toHexString_ne_empty]
  have hfind : findOne (fileFilter user view.id) st'.files
      = some { newFile with localPath := path } := by
    rw [hfiles]
    apply findOne_append_fresh
    · intro g hg
      cases hb : fileFilter user view.id g with
      | false => rfl
      | true =>
        have := ((fileFilter_iff user view.id g).1 hb).1
        rw [hview, sanitizedObjectId_toHexString] at this
        exact absurd this (hfresh g hg)
    · rw [fileFilter_iff, hview, sanitizedObjectId_toHexString]
      exact ⟨h1, h2⟩
  have hroot : isRootParent body → parentIdView newFile.parentId = .num 0 := by
    intro hr
    rw [h6 hr]
    rfl
  refine ⟨_, getShow_of_found user view.id st' _ htruthy hfind, rfl, rfl, h3, h4, h5, ?_, ?_, ?_,
    hroot, ?_⟩
  · intro b hb
    show newFile.isPublic = .bool b
    rw [h5, hb]
    cases b <;> rfl
  · intro hb
    show newFile.isPublic = .bool false
    rw [h5, hb]
    rfl
  · intro hp
    apply hroot
    unfold isRootParent uploadParentId
    rcases hp with hp | hp | hp <;> rw [hp] <;> decide
  · intro hr
    obtain ⟨parent, hmem, hkey, htype⟩ := postUploadError_none_parent body st herr hr
    refine ⟨parent, hmem, hkey, htype, ?_⟩
    intro hv
    have hvalid : isValidId (uploadParentId body) = true := by
      rcases hv with hv | hv
      · exact hv
      · cases hval : isValidId (uploadParentId body) with
        | true => rfl
        | false =>
          rw [sanitizedObjectId_of_invalid _ hval] at hkey
          exact absurd hkey (hv parent hmem)
    obtain ⟨o, ho, hpar⟩ := h7 hr
    rw [ObjectId.new_of_valid env _ hvalid] at ho
    simp only [Option.some.injEq] at ho
    show parentIdView newFile.parentId = .str parent._id.toHexString
    rw [hpar, ← ho, hkey]
    rfl

theorem getShow_after_postUpload_witness :
    postUpload sampleEnv sampleFileId "2b3f0d4a" sampleUser sampleFileBody sampleState1
        = (.json 201 (.file ⟨.str sampleFileId.toHexString, sampleUser.toHexString,
            .str "myText.txt", .str "file", .bool true, .str "5f1e8896c7ba06511e683b25"⟩),
          sampleState2) ∧
      ∃ shown, getShow sampleUser (.str sampleFileId.toHexString) sampleState2
          = .json 200 (.file shown) ∧
        shown.name = .str "myText.txt" ∧ shown.type = .str "file" ∧
        shown.isPublic = .bool true := by
  have h201 : postUpload sampleEnv sampleFileId "2b3f0d4a" sampleUser sampleFileBody sampleState1
      = (.json 201 (.file ⟨.str sampleFileId.toHexString, sampleUser.toHexString,
          .str "myText.txt", .str "file", .bool true, .str "5f1e8896c7ba06511e683b25"⟩),
        sampleState2) := by decide
  have h := getShow_after_postUpload sampleEnv sampleFileId "2b3f0d4a" sampleUser sampleFileBody
    sampleState1 _ sampleState2 h201
  obtain ⟨_, shown, hs, _, _, hn, ht, hp, _⟩ := h
  exact ⟨h201, shown, hs, hn, ht, hp⟩

/-! ## The parent invariant -/

/-- The files collection after `postUpload`: unchanged, or extended by a document
built from a request that passed the checks. -/
theorem postUpload_files (env : Env) (insertedId : ObjectId) (uuid : String) (user : ObjectId)
    (body : UploadBody) (st : State) :
    (postUpload env insertedId uuid user body st).2.files = st.files ∨
      ∃ newFile path, postUploadError body st = none ∧
        postUploadNewFile env insertedId user body = some newFile ∧
        (postUpload env insertedId uuid user body st).2.files
          = st.files ++ [{ newFile with localPath := path }] := by
  cases he : postUploadError body st with
  | some msg =>
    left
    rw [postUpload_of_error env insertedId uuid user body st msg he]
  | none =>
    cases hn : postUploadNewFile env insertedId user body with
    | none =>
      left
      unfold postUpload
      rw [he, hn]
    | some newFile =>
      have hpost : postUpload env insertedId uuid user body st
          = postUploadStore env uuid user body newFile st := by
        unfold postUpload
        rw [he, hn]
      rw [hpost]
      rcases postUploadStore_cases env uuid user body newFile st with ⟨_, h⟩ | ⟨path, _, _, h, _⟩
      · exact Or.inl h
      · exact Or.inr ⟨newFile, path, rfl, rfl, h⟩

theorem mem_updateOne (p : FileDoc → Bool) (upd : FileDoc → FileDoc) (files : List FileDoc)
    (f : FileDoc) (h : f ∈ updateOne p upd files) : f ∈ files ∨ ∃ g ∈ files, f = upd g := by
  induction files with
  | nil => simp [updateOne] at h
  | cons g gs ih =>
    unfold updateOne at h
    split at h
    · rcases List.mem_cons.1 h with h | h
      · exact Or.inr ⟨g, List.mem_cons_self _ _, h⟩
      · exact Or.inl (List.mem_cons_of_mem _ h)
    · rcases List.mem_cons.1 h with h | h
      · exact Or.inl (by rw [h]; exact List.mem_cons_self _ _)
      · rcases ih h with h | ⟨x, hx, hfx⟩
        · exact Or.inl (List.mem_cons_of_mem _ h)
        · exact Or.inr ⟨x, List.mem_cons_of_mem _ hx, hfx⟩

theorem mem_updateOne_of_mem (p : FileDoc → Bool) (upd : FileDoc → FileDoc)
    (files : List FileDoc) (g : FileDoc) (h : g ∈ files) :
    g ∈ updateOne p upd files ∨ upd g ∈ updateOne p upd files := by
  induction files with
  | nil => simp at h
  | cons x xs ih =>
    unfold updateOne
    split
    · rcases List.mem_cons.1 h with h | h
      · exact Or.inr (by rw [h]; exact List.mem_cons_self _ _)
      · exact Or.inl (List.mem_cons_of_mem _ h)
    · rcases List.mem_cons.1 h with h | h
      · exact Or.inl (by rw [h]; exact List.mem_cons_self _ _)
      · rcases ih h with h | h
        · exact Or.inl (List.mem_cons_of_mem _ h)
        · exact Or.inr (List.mem_cons_of_mem _ h)

/-- The invariant carried along a run: no all-zero id, and parents are folders. -/
theorem invariant_updateOne (p : FileDoc → Bool) (v : JsVal) (files : List FileDoc)
    (h : noNullId files ∧ parentsAreFolders files) :
    noNullId (updateOne p (fun f => { f with isPublic := v }) files) ∧
      parentsAreFolders (updateOne p (fun f => { f with isPublic := v }) files) := by
  obtain ⟨hnull, hpar⟩ := h
  have hback : ∀ f ∈ updateOne p (fun f => { f with isPublic := v }) files,
      ∃ g ∈ files, f._id = g._id ∧ f.type = g.type ∧ f.parentId = g.parentId := by
    intro f hf
    rcases mem_updateOne _ _ _ _ hf with h | ⟨g, hg, hfg⟩
    · exact ⟨f, h, rfl, rfl, rfl⟩
    · exact ⟨g, hg, by rw [hfg], by rw [hfg], by rw [hfg]⟩
  have hforth : ∀ g ∈ files, ∃ f ∈ updateOne p (fun f => { f with isPublic := v }) files,
      f._id = g._id ∧ f.type = g.type := by
    intro g hg
    rcases mem_updateOne_of_mem p (fun f => { f with isPublic := v }) files g hg with h | h
    · exact ⟨g, h, rfl, rfl⟩
    · exact ⟨_, h, rfl, rfl⟩
  refine ⟨?_, ?_⟩
  · intro f hf
    obtain ⟨g, hg, hid, _, _⟩ := hback f hf
    rw [hid]
    exact hnull g hg
  · intro f hf
    obtain ⟨g, hg, _, _, hp⟩ := hback f hf
    rcases hpar g hg with h | ⟨parent, hmem, h1, h2⟩
    · exact Or.inl (by rw [hp, h])
    · obtain ⟨parent', hmem', hid', htype'⟩ := hforth parent hmem
      exact Or.inr ⟨parent', hmem', by rw [hp, h1, hid'], by rw [htype', h2]⟩

theorem invariant_setPublic (v : Bool) (user : ObjectId) (id : JsVal) (st : State)
    (h : noNullId st.files ∧ parentsAreFolders st.files) :
    noNullId (setPublic v user id st).2.files ∧
      parentsAreFolders (setPublic v user id st).2.files := by
  rw [setPublic_eq]
  split
  · exact h
  · exact invariant_updateOne _ _ _ h

theorem invariant_postUpload (env : Env) (insertedId : ObjectId) (uuid : String)
    (user : ObjectId) (body : UploadBody) (st : State) (hid : driverGenerated insertedId st.files)
    (h : noNullId st.files ∧ parentsAreFolders st.files) :
    noNullId (postUpload env insertedId uuid user body st).2.files ∧
      parentsAreFolders (postUpload env insertedId uuid user body st).2.files := by
  obtain ⟨hnull, hpar⟩ := h
  rcases postUpload_files env insertedId uuid user body st with hsame | ⟨nf, path, herr, hnew, hf⟩
  · rw [hsame]
    exact ⟨hnull, hpar⟩
  · rw [hf]
    obtain ⟨h1, _, _, _, _, h6, h7⟩ := postUploadNewFile_some env insertedId user body nf hnew
    refine ⟨?_, ?_⟩
    · intro f hmem
      rcases List.mem_append.1 hmem with hmem | hmem
      · exact hnull f hmem
      · simp only [List.mem_singleton] at hmem
        rw [hmem]
        show nf._id ≠ nullObjectId
        rw [h1]
        exact hid.1
    · intro f hmem
      rcases List.mem_append.1 hmem with hmem | hmem
      · rcases hpar f hmem with h | ⟨g, hg, h2, h3⟩
        · exact Or.inl h
        · exact Or.inr ⟨g, List.mem_append_left _ hg, h2, h3⟩
      · simp only [List.mem_singleton] at hmem
        rw [hmem]
        show nf.parentId = .root ∨ _
        by_cases hr : isRootParent body
        · exact Or.inl (h6 hr)
        · right
          obtain ⟨parent, hpm, hkey, htype⟩ := postUploadError_none_parent body st herr hr
          have hvalid : isValidId (uploadParentId body) = true := by
            cases hval : isValidId (uploadParentId body) with
            | true => rfl
            | false =>
              rw [sanitizedObjectId_of_invalid _ hval] at hkey
              exact absurd hkey (hnull parent hpm)
          obtain ⟨o, ho, hp⟩ := h7 hr
          rw [ObjectId.new_of_valid env _ hvalid] at ho
          simp only [Option.some.injEq] at ho
          exact ⟨parent, List.mem_append_left _ hpm, by rw [hp, ← ho, hkey], htype⟩

theorem reachable_invariant (env : Env) (st : State) (h : Reachable env st) :
    noNullId st.files ∧ parentsAreFolders st.files := by
  induction h with
  | init st hempty =>
    rw [hempty]
    exact ⟨fun f hf => absurd hf (List.not_mem_nil f), fun f hf => absurd hf (List.not_mem_nil f)⟩
  | step st st' _ hstep ih =>
    cases hstep with
    | upload insertedId uuid user body _ hid =>
      exact invariant_postUpload env insertedId uuid user body st hid ih
    | publish user id _ => exact invariant_setPublic true user id st ih
    | unpublish user id _ => exact invariant_setPublic false user id st ih

/-- C7: in every state reached from an empty collection by calls of `postUpload`
(with ids generated by the driver), `putPublish` and `putUnpublish`, the parent of
every stored entity is the root or a stored entity of type `folder`. -/
theorem reachable_parents_are_folders (env : Env) (st : State) (h : Reachable env st) :
    parentsAreFolders st.files :=
  (reachable_invariant env st h).2

theorem sampleState2_reachable : Reachable sampleEnv sampleState2 :=
  Reachable.step sampleState1 sampleState2
    (Reachable.step State.empty sampleState1 (Reachable.init State.empty rfl)
      (Step.upload sampleFolderId "1c9b2a6e" sampleUser sampleFolderBody State.empty
        ⟨by decide, by decide⟩))
    (Step.upload sampleFileId "2b3f0d4a" sampleUser sampleFileBody sampleState1
      ⟨by decide, by decide⟩)

theorem reachable_parents_are_folders_witness :
    Reachable sampleEnv sampleState2 ∧ sampleState2.files.length = 2 ∧
      parentsAreFolders sampleState2.files :=
  ⟨sampleState2_reachable, by decide,
    reachable_parents_are_folders sampleEnv sampleState2 sampleState2_reachable⟩
/-! ## Invalid ids in reachable states -/

theorem postUpload_invalid_parent_400 (env : Env) (insertedId : ObjectId) (uuid : String)
    (user : ObjectId) (body : UploadBody) (st : State) (hnull : noNullId st.files)
    (hinv : isValidId body.parentId = false) (hr : ¬ isRootParent body) :
    ∃ msg ∈ ["Missing name", "Missing type", "Missing data", "Parent not found"],
      postUpload env insertedId uuid user body st = (.json 400 (.error msg), st) := by
  cases hn : body.name.truthy with
  | false =>
    exact ⟨"Missing name", by simp,
      postUpload_of_error _ _ _ _ _ _ _ (postUploadError_name body st hn)⟩
  | true =>
    by_cases ht : body.type ∈ VALID_FILE_TYPES
    · by_cases hd : body.data.truthy = true ∨ body.type = .str "folder"
      · refine ⟨"Parent not found", by simp, ?_⟩
        exact (invalid_id_lookup_misses env user none body.parentId .undefined st hinv
          hnull).2.2.2.2.2.2 insertedId uuid body ⟨hn, ht, hd⟩ rfl hr
      · simp only [not_or, Bool.not_eq_true] at hd
        exact ⟨"Missing data", by simp,
          postUpload_of_error _ _ _ _ _ _ _ (postUploadError_data body st hn ht hd.1 hd.2)⟩
    · exact ⟨"Missing type", by simp,
        postUpload_of_error _ _ _ _ _ _ _ (postUploadError_type body st hn (Or.inr ht))⟩

/-- C9, as the code has it: for an id that `isValidId` rejects the lookup uses the
all-zero sentinel; in every state reached from an empty collection through the
handlers that lookup misses, so `getShow`, `putPublish`, `putUnpublish` and `getFile`
(for a request that carries a user object) answer 404 `Not found` without throwing
and change nothing; an upload whose parent is such an id, not the root, is always
answered 400, with `Parent not found` whenever its body passes the name, type and
data checks that come first. -/
theorem invalid_id_not_found (env : Env) (user : ObjectId) (caller : Option ObjectId)
    (id size : JsVal) (st : State) (hinv : isValidId id = false) (hreach : Reachable env st) :
    sanitizedObjectId id = nullObjectId ∧
    nullObjectId.toHexString = NULL_ID ∧
    findOne (fileFilter user id) st.files = none ∧
    getFileLookup id st = none ∧
    getShow user id st = notFound ∧
    putPublish user id st = (notFound, st) ∧
    putUnpublish user id st = (notFound, st) ∧
    getFile env (.object caller) id size st = notFound ∧
    (∀ (insertedId : ObjectId) (uuid : String) (body : UploadBody),
      body.parentId = id → ¬ isRootParent body →
      (∃ msg ∈ ["Missing name", "Missing type", "Missing data", "Parent not found"],
        postUpload env insertedId uuid user body st = (.json 400 (.error msg), st)) ∧
      (passesFieldChecks body →
        postUpload env insertedId uuid user body st
          = (.json 400 (.error "Parent not found"), st))) := by
  have hnull := (reachable_invariant env st hreach).1
  obtain ⟨h1, h2, h3, h4, h5, h6, h7⟩ :=
    invalid_id_lookup_misses env user caller id size st hinv hnull
  have hfilter : findOne (fileFilter user id) st.files = none :=
    findOne_null_none _ _ hnull (fun f hf => by
      rw [← h1]; exact ((fileFilter_iff user id f).1 hf).1)
  have hlookup : getFileLookup id st = none := by
    unfold getFileLookup
    exact findOne_null_none _ _ hnull (fun f hf => by
      rw [← h1]; simpa using hf)
  refine ⟨h1, h2, hfilter, hlookup, h3, h4, h5, h6, ?_⟩
  intro insertedId uuid body hb hr
  refine ⟨?_, fun hc => h7 insertedId uuid body hc hb hr⟩
  exact postUpload_invalid_parent_400 env insertedId uuid user body st hnull (by rw [hb]; exact hinv)
    hr

theorem invalid_id_not_found_witness :
    isValidId (.str "5f1e8896c7ba06511e683b2z") = false ∧ Reachable sampleEnv sampleState2 ∧
      getShow sampleUser (.str "5f1e8896c7ba06511e683b2z") sampleState2 = notFound ∧
      getFile sampleEnv (.object none) (.str "5f1e8896c7ba06511e683b2z") .undefined sampleState2
        = notFound :=
  ⟨by decide, sampleState2_reachable,
    (invalid_id_not_found sampleEnv sampleUser none (.str "5f1e8896c7ba06511e683b2z") .undefined
      sampleState2 (by decide) sampleState2_reachable).2.2.2.2.1,
    (invalid_id_not_found sampleEnv sampleUser none (.str "5f1e8896c7ba06511e683b2z") .undefined
      sampleState2 (by decide) sampleState2_reachable).2.2.2.2.2.2.2.1⟩

/-- C9 as stated fails in its last part: an upload whose parent is an invalid id other
than the root, sent without a name into the empty collection, is answered
`Missing name` and not `Parent not found`. -/
theorem invalid_parent_missing_name :
    Reachable sampleEnv State.empty ∧
    isValidId namelessBody.parentId = false ∧
    ¬ isRootParent namelessBody ∧
    postUpload sampleEnv sampleFileId "2b3f0d4a" sampleUser namelessBody State.empty
      = (.json 400 (.error "Missing name"), State.empty) ∧
    (postUpload sampleEnv sampleFileId "2b3f0d4a" sampleUser namelessBody State.empty).1
      ≠ .json 400 (.error "Parent not found") := by
  refine ⟨Reachable.init State.empty rfl, ?_, ?_, ?_, ?_⟩
  · decide
  · unfold isRootParent; decide
  · decide
  · decide

/-! ## The page parameter -/

theorem digitChar_toNat (m : Nat) (h : m < 10) :
    (Nat.digitChar m).toNat = 48 + m := by
  interval_cases m <;> rfl

theorem isDecimalDigit_digitChar (m : Nat) (h : m < 10) :
    isDecimalDigit (Nat.digitChar m) = true := by
  interval_cases m <;> rfl

theorem toDigitsCore_digits (fuel : Nat) : ∀ (n : Nat) (ds : List Char),
    (∀ c ∈ ds, isDecimalDigit c = true) →
    ∀ c ∈ Nat.toDigitsCore 10 fuel n ds, isDecimalDigit c = true := by
  induction fuel with
  | zero => intro n ds h c hc; exact h c (by simpa [Nat.toDigitsCore] using hc)
  | succ fuel ih =>
    intro n ds h c hc
    have hd : ∀ c ∈ Nat.digitChar (n % 10) :: ds, isDecimalDigit c = true := by
      intro c hc
      rcases List.mem_cons.1 hc with hc | hc
      · rw [hc]; exact isDecimalDigit_digitChar _ (Nat.mod_lt _ (by norm_num))
      · exact h c hc
    unfold Nat.toDigitsCore at hc
    simp only [] at hc
    split at hc
    · exact hd c hc
    · exact ih _ _ hd c hc

theorem toDigitsCore_ne_nil (fuel : Nat) : ∀ (n : Nat) (ds : List Char),
    ds ≠ [] → Nat.toDigitsCore 10 fuel n ds ≠ [] := by
  induction fuel with
  | zero => intro n ds h; simpa [Nat.toDigitsCore] using h
  | succ fuel ih =>
    intro n ds _
    unfold Nat.toDigitsCore
    simp only []
    split
    · simp
    · exact ih _ _ (by simp)

theorem toDigitsCore_value (fuel : Nat) : ∀ (n : Nat) (ds : List Char), n < fuel →
    (Nat.toDigitsCore 10 fuel n ds).foldl (fun acc c => acc * 10 + (c.toNat - 48)) 0
      = ds.foldl (fun acc c => acc * 10 + (c.toNat - 48)) n := by
  induction fuel with
  | zero => intro n ds h; omega
  | succ fuel ih =>
    intro n ds hn
    unfold Nat.toDigitsCore
    simp only []
    have hdc : (Nat.digitChar (n % 10)).toNat - 48 = n % 10 := by
      rw [digitChar_toNat _ (Nat.mod_lt _ (by norm_num))]
      omega
    split
    · rename_i h0
      simp only [List.foldl_cons, hdc]
      have : n % 10 = n := by omega
      rw [this]
      simp
    · rename_i h0
      rw [ih (n / 10) _ (by omega)]
      simp only [List.foldl_cons, hdc]
      have : n / 10 * 10 + n % 10 = n := by omega
      rw [this]

theorem toString_nat_data (k : Nat) : (toString k).data = Nat.toDigits 10 k := rfl

theorem toDigits_digits (k : Nat) : ∀ c ∈ Nat.toDigits 10 k, isDecimalDigit c = true :=
  toDigitsCore_digits _ _ _ (fun c hc => absurd hc (List.not_mem_nil c))

theorem toDigits_ne_nil (k : Nat) : Nat.toDigits 10 k ≠ [] := by
  unfold Nat.toDigits Nat.toDigitsCore
  simp only []
  split
  · simp
  · exact toDigitsCore_ne_nil _ _ _ (by simp)

theorem toDigits_value (k : Nat) : decimalValue (Nat.toDigits 10 k) = k := by
  unfold decimalValue Nat.toDigits
  rw [toDigitsCore_value _ _ _ (Nat.lt_succ_self k)]
  rfl

theorem isJsWhiteSpace_of_digit (c : Char) (h : isDecimalDigit c = true) :
    isJsWhiteSpace c = false := by
  unfold isDecimalDigit at h
  simp only [Bool.and_eq_true, decide_eq_true_eq] at h
  unfold isJsWhiteSpace
  simp only [List.contains_cons, List.contains_nil, Bool.or_false, Bool.or_eq_false_iff,
    beq_eq_false_iff_ne, ne_eq, Bool.and_eq_false_imp, decide_eq_true_eq, decide_eq_false_iff_not,
    not_le, Bool.and_eq_false_iff]
  omega

/-- The decimal form of a natural number is parsed back to that number. -/
theorem parseInt_toString (k : Nat) : parseInt (toString k) = some (k : Int) := by
  have hds := toDigits_digits k
  have hne := toDigits_ne_nil k
  have hv := toDigits_value k
  unfold parseInt
  rw [toString_nat_data]
  generalize Nat.toDigits 10 k = ds at hds hne hv
  cases ds with
  | nil => exact absurd rfl hne
  | cons c rest =>
    have hc := hds c (List.mem_cons_self _ _)
    have hw := isJsWhiteSpace_of_digit c hc
    have hminus : c ≠ '-' := by
      intro h; rw [h] at hc; revert hc; decide
    have hplus : c ≠ '+' := by
      intro h; rw [h] at hc; revert hc; decide
    have htake : (c :: rest).takeWhile isDecimalDigit = c :: rest := by
      rw [List.takeWhile_eq_self_iff]
      exact hds
    simp only [List.dropWhile_cons, hw, Bool.false_eq_true, if_false, hminus, hplus, htake,
      List.isEmpty_cons, hv]

theorem containsDigits_toString (k : Nat) : containsDigits (toString k) = true := by
  unfold containsDigits
  rw [toString_nat_data, List.any_eq_true]
  have hne := toDigits_ne_nil k
  have hds := toDigits_digits k
  generalize Nat.toDigits 10 k = ds at hds hne
  cases ds with
  | nil => exact absurd rfl hne
  | cons c rest => exact ⟨c, List.mem_cons_self _ _, hds c (List.mem_cons_self _ _)⟩

theorem toString_nat_ne_empty (k : Nat) : toString k ≠ "" := by
  intro h
  have := toDigits_ne_nil k
  rw [← toString_nat_data, h] at this
  exact this rfl

/-- The page number `getIndex` takes from the decimal form of `k` is `k`. -/
theorem getIndexPage_toString (k : Nat) : getIndexPage (.str (toString k)) = some (k : Int) := by
  unfold getIndexPage
  have : (JsVal.str (toString k)).or (.str "") = .str (toString k) := by
    simp [JsVal.or, JsVal.truthy, toString_nat_ne_empty]
  rw [this]
  simp only [JsVal.toJsString, containsDigits_toString, if_true]
  exact parseInt_toString k

theorem getIndexPage_no_digit (s : String) (h : containsDigits s = false) :
    getIndexPage (.str s) = some 0 := by
  unfold getIndexPage JsVal.or
  split
  · simp [JsVal.toJsString, h]
  · have : containsDigits (JsVal.str "").toJsString = false := by decide
    simp [this]

/-- C5 does not hold of the code: the page number taken from `-5` is `-5`, from
`abc12` it is `NaN`, from `1x` it is 1; with `-5` the `$skip` is negative and the
handler throws.  What does hold: an absent or empty parameter and any string
without a digit give 0, and the decimal form of `k` gives `k`. -/
theorem getIndexPage_failing_inputs :
    getIndexPage (.str "-5") = some (-5) ∧
    getIndexPage (.str "abc12") = none ∧
    getIndexPage (.str "1x") = some 1 ∧
    getIndex sampleUser ⟨.undefined, .str "-5"⟩ sampleState2 = .threw "MongoError" ∧
    getIndex sampleUser ⟨.undefined, .str "abc12"⟩ sampleState2 = .threw "MongoError" ∧
    getIndexPage .undefined = some 0 ∧
    getIndexPage (.str "") = some 0 ∧
    (∀ s : String, containsDigits s = false → getIndexPage (.str s) = some 0) ∧
    (∀ k : Nat, getIndexPage (.str (toString k)) = some (k : Int)) := by
  refine ⟨?_, ?_, ?_, ?_, ?_, ?_, ?_, getIndexPage_no_digit, getIndexPage_toString⟩ <;> decide

/-! ## Listing and pages -/

theorem filesFilter_iff (user : ObjectId) (parentIdParam : JsVal) (f : FileDoc) :
    filesFilter user parentIdParam f = true ↔
      f.userId = user ∧ f.parentId = filterParentId parentIdParam := by
  unfold filesFilter
  simp

theorem mem_listing (user : ObjectId) (parentIdParam : JsVal) (st : State) (f : FileDoc) :
    f ∈ listing user parentIdParam st ↔
      f ∈ st.files ∧ f.userId = user ∧ f.parentId = filterParentId parentIdParam := by
  unfold listing sortByIdDesc
  rw [(List.perm_insertionSort idDescending _).mem_iff, List.mem_filter, filesFilter_iff]

theorem listing_ids_pairwise (user : ObjectId) (parentIdParam : JsVal) (st : State)
    (hd : distinctIds st.files) :
    (listing user parentIdParam st).Pairwise (fun a b => a._id ≠ b._id) := by
  unfold distinctIds at hd
  have h1 : ((st.files.filter (filesFilter user parentIdParam)).map fun f => f._id).Nodup :=
    hd.sublist (List.Sublist.map _ (List.filter_sublist _))
  have h2 : ((listing user parentIdParam st).map fun f => f._id).Nodup := by
    unfold listing sortByIdDesc
    exact ((List.perm_insertionSort idDescending _).map _).nodup_iff.2 h1
  exact List.pairwise_map.1 h2

theorem listing_sorted (user : ObjectId) (parentIdParam : JsVal) (st : State)
    (hd : distinctIds st.files) :
    (listing user parentIdParam st).Pairwise (fun a b => b._id.val < a._id.val) := by
  have h1 : (listing user parentIdParam st).Pairwise idDescending := by
    unfold listing sortByIdDesc
    exact List.sorted_insertionSort idDescending _
  have h2 := listing_ids_pairwise user parentIdParam st hd
  refine (h1.and h2).imp ?_
  intro a b hab
  obtain ⟨hle, hne⟩ := hab
  unfold idDescending at hle
  have : b._id.val ≠ a._id.val := by
    intro h
    apply hne
    cases ha : a._id
    cases hb : b._id
    rw [ha, hb] at h
    simp only at h
    simp [h]
  omega

theorem projectFile_injective (a b : FileDoc) (h : projectFile a = projectFile b) :
    a._id = b._id := by
  unfold projectFile at h
  simp only [FileView.mk.injEq, JsVal.str.injEq] at h
  exact toHexString_injective _ _ h.1

theorem listing_views_nodup (user : ObjectId) (parentIdParam : JsVal) (st : State)
    (hd : distinctIds st.files) :
    ((listing user parentIdParam st).map projectFile).Nodup := by
  unfold List.Nodup
  rw [List.pairwise_map]
  exact (listing_ids_pairwise user parentIdParam st hd).imp
    (fun {a b} hne h => hne (projectFile_injective a b h))

theorem listingPage_eq (user : ObjectId) (parentIdParam : JsVal) (st : State) (k : Nat) :
    listingPage user parentIdParam st k
      = (((listing user parentIdParam st).map projectFile).drop (k * 20)).take 20 := by
  unfold listingPage MAX_FILES_PER_PAGE
  rw [List.map_take, List.map_drop]

theorem segments_disjoint {α : Type} (l : List α) (hl : l.Nodup) (n i j : Nat) (hij : i < j) :
    List.Disjoint ((l.drop (i * n)).take n) ((l.drop (j * n)).take n) := by
  have h1 : ∀ x ∈ (l.drop (i * n)).take n, x ∈ l.take (j * n) := by
    intro x hx
    rw [List.take_drop] at hx
    have hx' := List.mem_of_mem_drop hx
    have hle : i * n + n ≤ j * n := by
      have : (i + 1) * n ≤ j * n := Nat.mul_le_mul_right n hij
      rw [Nat.add_mul, Nat.one_mul] at this
      exact this
    exact (List.take_subset_take_left l hle) hx'
  have h2 : ∀ x ∈ (l.drop (j * n)).take n, x ∈ l.drop (j * n) :=
    fun x hx => List.mem_of_mem_take hx
  have hdis := List.disjoint_take_drop hl (Nat.le_refl (j * n))
  intro x hx1 hx2
  exact hdis (h1 x hx1) (h2 x hx2)

theorem segments_flatten {α : Type} (l : List α) (n : Nat) : ∀ m : Nat,
    ((List.range m).map fun k => (l.drop (k * n)).take n).flatten = l.take (m * n) := by
  intro m
  induction m with
  | zero => simp
  | succ m ih =>
    rw [List.range_succ, List.map_append, List.flatten_append, ih]
    simp only [List.map_cons, List.map_nil, List.flatten_cons, List.flatten_nil, List.append_nil]
    rw [Nat.succ_mul, List.take_add]

theorem getIndex_of_page (user : ObjectId) (query : IndexQuery) (st : State) (k : Nat)
    (h : getIndexPage query.page = some (k : Int)) :
    getIndex user query st = .json 200 (.files (listingPage user query.parentId st k)) := by
  unfold getIndex
  rw [h]
  simp only []
  have hnn : ¬ ((k : Int) * (MAX_FILES_PER_PAGE : Int) < 0) := by
    have : (0 : Int) ≤ (k : Int) * (MAX_FILES_PER_PAGE : Int) :=
      Int.mul_nonneg (Int.ofNat_nonneg k) (Int.ofNat_nonneg _)
    omega
  rw [if_neg hnn]
  have htn : ((k : Int) * (MAX_FILES_PER_PAGE : Int)).toNat = k * MAX_FILES_PER_PAGE := by
    rw [← Int.natCast_mul, Int.toNat_natCast]
  rw [htn]
  rfl
theorem filterParentId_root (parentId : JsVal)
    (h : parentId.truthy = false ∨ parentId = .str "0") : filterParentId parentId = .root := by
  unfold filterParentId JsVal.or
  rcases h with h | h
  · simp [h, ROOT_FOLDER_ID_STRING]
  · subst h
    decide

theorem toHexString_ne_zero (o : ObjectId) : o.toHexString ≠ "0" := by
  intro h
  have := isValidId_toHexString o
  rw [h] at this
  revert this
  decide

theorem filterParentId_of_truthy (parentId : JsVal) (ht : parentId.truthy = true)
    (hz : parentId ≠ .str "0") :
    filterParentId parentId = .oid (sanitizedObjectId parentId) := by
  unfold filterParentId JsVal.or
  simp [ht, ROOT_FOLDER_ID_STRING, hz]

theorem filterParentId_toHexString (o : ObjectId) :
    filterParentId (.str o.toHexString) = .oid o := by
  rw [filterParentId_of_truthy _ (by simp [JsVal.truthy, toHexString_ne_empty])
    (by simp [toHexString_ne_zero]), sanitizedObjectId_toHexString]

theorem projectFile_eq :
    projectFile = fun f =>
      { id := .str f._id.toHexString, userId := f.userId.toHexString, name := f.name,
        type := f.type, isPublic := f.isPublic,
        parentId := match f.parentId with
          | .root => .num 0
          | .oid o => .str o.toHexString } := by
  funext f
  unfold projectFile parentIdView
  cases f.parentId <;> rfl

theorem listing_invalid_parent (user : ObjectId) (parentId : JsVal) (st : State)
    (hnull : noNullId st.files) (hpar : parentsAreFolders st.files)
    (ht : parentId.truthy = true) (hz : parentId ≠ .str "0") (hinv : isValidId parentId = false) :
    listing user parentId st = [] := by
  rw [List.eq_nil_iff_forall_not_mem]
  intro f hf
  obtain ⟨hmem, _, hp⟩ := (mem_listing user parentId st f).1 hf
  rw [filterParentId_of_truthy parentId ht hz, sanitizedObjectId_of_invalid parentId hinv] at hp
  rcases hpar f hmem with h | ⟨g, hg, h1, _⟩
  · rw [hp] at h
    cases h
  · rw [hp] at h1
    simp only [ParentRef.oid.injEq] at h1
    exact hnull g hg h1.symm

/-- C4: with pairwise distinct ids in the collection, `getIndex` for page `k` answers
200 with entries `k * 20 .. k * 20 + 19` of the listing: the documents owned by the
principal whose parent is the requested one, by descending id.  The requested parent
is the root for an absent parameter and for `'0'`, the folder with that id for the
hexadecimal form of an id, and for any other value the all-zero id, which no document
of a reachable state has as parent.  Each entry carries the id, owner, name, type and
`isPublic` of its document, and `parentId` as the number 0 for the root and the hex id
otherwise.  A page has at most 20 entries, different pages are disjoint, the pages
`0 .. n - 1` together are the whole listing once `20 * n` reaches its length, and a
page beyond the data is empty. -/
theorem getIndex_pages (user : ObjectId) (parentId : JsVal) (st : State)
    (hd : distinctIds st.files) :
    (∀ f, f ∈ listing user parentId st ↔
      f ∈ st.files ∧ f.userId = user ∧ f.parentId = filterParentId parentId) ∧
    ((parentId.truthy = false ∨ parentId = .str "0") → filterParentId parentId = .root) ∧
    (∀ o : ObjectId, parentId = .str o.toHexString → filterParentId parentId = .oid o) ∧
    (∀ s : String, parentId = .str s → isValidId parentId = true →
      filterParentId parentId = .oid (ObjectId.createFromHexString s)) ∧
    (parentId.truthy = true → parentId ≠ .str "0" → isValidId parentId = false →
      filterParentId parentId = .oid nullObjectId ∧
      ∀ env, Reachable env st → listing user parentId st = []) ∧
    (listing user parentId st).Pairwise (fun a b => b._id.val < a._id.val) ∧
    (listing user parentId st).Perm (st.files.filter (filesFilter user parentId)) ∧
    (∀ k : Nat, getIndex user ⟨parentId, .str (toString k)⟩ st
      = .json 200 (.files (listingPage user parentId st k))) ∧
    getIndex user ⟨parentId, .undefined⟩ st
      = .json 200 (.files (listingPage user parentId st 0)) ∧
    (∀ k : Nat, listingPage user parentId st k
      = (((listing user parentId st).drop (k * 20)).take 20).map fun f =>
          { id := .str f._id.toHexString, userId := f.userId.toHexString, name := f.name,
            type := f.type, isPublic := f.isPublic,
            parentId := match f.parentId with
              | .root => .num 0
              | .oid o => .str o.toHexString }) ∧
    (∀ k : Nat, listingPage user parentId st k
      = (((listing user parentId st).map projectFile).drop (k * 20)).take 20) ∧
    (∀ k : Nat, (listingPage user parentId st k).length ≤ 20) ∧
    (∀ k : Nat, List.Disjoint (listingPage user parentId st k)
      (listingPage user parentId st (k + 1))) ∧
    (∀ i j : Nat, i ≠ j → List.Disjoint (listingPage user parentId st i)
      (listingPage user parentId st j)) ∧
    (∀ n : Nat, (listing user parentId st).length ≤ 20 * n →
      ((List.range n).map (listingPage user parentId st)).flatten
        = (listing user parentId st).map projectFile) ∧
    (∀ k : Nat, (listing user parentId st).length ≤ 20 * k →
      listingPage user parentId st k = []) := by
  have hnodup := listing_views_nodup user parentId st hd
  have hdisj : ∀ i j : Nat, i ≠ j → List.Disjoint (listingPage user parentId st i)
      (listingPage user parentId st j) := by
    intro i j hij
    rw [listingPage_eq, listingPage_eq]
    rcases Nat.lt_or_gt_of_ne hij with h | h
    · exact segments_disjoint _ hnodup 20 i j h
    · exact (segments_disjoint _ hnodup 20 j i h).symm
  refine ⟨mem_listing user parentId st, filterParentId_root parentId, ?_, ?_, ?_,
    listing_sorted user parentId st hd, ?_, ?_, ?_, ?_,
    listingPage_eq user parentId st, ?_, ?_, hdisj, ?_, ?_⟩
  · intro o ho
    rw [ho]
    exact filterParentId_toHexString o
  · intro s hs hv
    have ht : parentId.truthy = true := by
      cases htr : parentId.truthy with
      | true => rfl
      | false =>
        rw [hs] at htr hv
        have : s = "" := by simpa [JsVal.truthy] using htr
        rw [this] at hv
        revert hv
        decide
    have hz : parentId ≠ .str "0" := by
      intro h
      rw [h] at hv
      revert hv
      decide
    rw [filterParentId_of_truthy parentId ht hz, hs, sanitizedObjectId_of_valid s (by rw [← hs]; exact hv)]
  · intro ht hz hinv
    refine ⟨?_, ?_⟩
    · rw [filterParentId_of_truthy parentId ht hz, sanitizedObjectId_of_invalid parentId hinv]
    · intro env hreach
      obtain ⟨hnull, hpar⟩ := reachable_invariant env st hreach
      exact listing_invalid_parent user parentId st hnull hpar ht hz hinv
  · unfold listing sortByIdDesc
    exact List.perm_insertionSort idDescending _
  · intro k
    exact getIndex_of_page user ⟨parentId, .str (toString k)⟩ st k (getIndexPage_toString k)
  · have h0 : getIndexPage .undefined = some ((0 : Nat) : Int) := by decide
    exact getIndex_of_page user ⟨parentId, .undefined⟩ st 0 h0
  · intro k
    unfold listingPage MAX_FILES_PER_PAGE
    rw [projectFile_eq]
  · intro k
    rw [listingPage_eq]
    exact List.length_take_le _ _
  · intro k
    exact hdisj k (k + 1) (by omega)
  · intro n hn
    have : (fun k => listingPage user parentId st k)
        = fun k => (((listing user parentId st).map projectFile).drop (k * 20)).take 20 := by
      funext k
      exact listingPage_eq user parentId st k
    show ((List.range n).map (fun k => listingPage user parentId st k)).flatten = _
    rw [this, segments_flatten]
    apply List.take_of_length_le
    rw [List.length_map]
    omega
  · intro k hk
    rw [listingPage_eq, List.drop_eq_nil_of_le, List.take_nil]
    rw [List.length_map]
    omega

theorem getIndex_pages_witness :
    distinctIds sampleState2.files ∧
      getIndex sampleUser ⟨.str "5f1e8896c7ba06511e683b25", .str (toString 0)⟩ sampleState2
        = .json 200 (.files
            (listingPage sampleUser (.str "5f1e8896c7ba06511e683b25") sampleState2 0)) ∧
      listingPage sampleUser (.str "5f1e8896c7ba06511e683b25") sampleState2 0
        = [⟨.str "5f1e881cc7ba06511e683b23", "5f1e7cda04a394508232559d", .str "myText.txt",
            .str "file", .bool true, .str "5f1e8896c7ba06511e683b25"⟩] ∧
      listingPage sampleUser .undefined sampleState2 0
        = [⟨.str "5f1e8896c7ba06511e683b25", "5f1e7cda04a394508232559d", .str "images",
            .str "folder", .bool false, .num 0⟩] ∧
      listingPage otherUser .undefined sampleState2 0 = [] ∧
      listingPage sampleUser .undefined sampleState2 1 = [] :=
  ⟨by unfold distinctIds; decide,
    (getIndex_pages sampleUser (.str "5f1e8896c7ba06511e683b25") sampleState2
      (by unfold distinctIds; decide)).2.2.2.2.2.2.2.1 0,
    by decide, by decide, by decide, by decide⟩

end FilesManager
